import Mathlib

/-!
Shallow embedding of `src/schemInfoPy.py`, a Minecraft schematic inspector.

The script consumes trees decoded by the external `nbtlib` library.  The
decoded generic tree is modelled as `NBT`: a compound is an ordered key/value
list (a Python `dict` preserves insertion order and has unique keys), a list is
a node sequence, byte/int arrays are integer sequences (nbtlib represents them
as 1-dimensional numpy arrays), a string is a string, and every integral scalar
tag (Byte/Short/Int/Long) is `int`.  Float/Double scalars are omitted from the
node universe: no claim exercises real scalars.

Python raising behaviour is made explicit with `Except String`: an `.error`
marks a point where the source would raise an exception that is only caught by
the outermost handler of `analyze_schematic` (which stores the message in the
result's `error` field and stops further extraction).  The error message texts
are stand-ins for the interpreter's exception texts; no claim matches on them.
-/

inductive NBT where
  | compound : List (String × NBT) → NBT
  | list : List NBT → NBT
  | byteArray : List Int → NBT
  | intArray : List Int → NBT
  | string : String → NBT
  | int : Int → NBT

/-- Values stored in the structured analysis result (a JSON-like record):
strings, integers, nested records, arrays, lists of key names, and raw tree
nodes stored unchanged (e.g. palette ids, dimension tags). -/
inductive RVal where
  | s : String → RVal
  | i : Int → RVal
  | obj : List (String × RVal) → RVal
  | arr : List RVal → RVal
  | strList : List String → RVal
  | tag : NBT → RVal

/-- Python `dict` lookup on a compound's entry list (first binding wins;
real dicts have unique keys). -/
def nbtGet : List (String × NBT) → String → Option NBT
  | [], _ => none
  | (ka, v) :: t, k => if ka == k then some v else nbtGet t k

/-- `key in dict` for a compound. -/
def hasKey (kvs : List (String × NBT)) (k : String) : Bool :=
  (nbtGet kvs k).isSome

/-- Lookup in the structured result record. -/
def lookupR : List (String × RVal) → String → Option RVal
  | [], _ => none
  | (ka, v) :: t, k => if ka == k then some v else lookupR t k

/-- `isinstance(v, dict)`: only compounds subclass `dict` in nbtlib. -/
def isCompoundB : NBT → Bool
  | .compound _ => true
  | _ => false

/-- `isinstance(v, list)`-shaped test used in hypotheses: nbtlib `List`. -/
def isListB : NBT → Bool
  | .list _ => true
  | _ => false

/-- The node is an integral scalar tag. -/
def isIntB : NBT → Bool
  | .int _ => true
  | _ => false

/-- `hasattr(v, 'shape')`: in nbtlib only the array tags are numpy arrays and
carry a `shape` attribute; for a 1-dimensional array the shape tuple `(n,)` is
non-empty, hence truthy, for every `n`. -/
def hasShapeB : NBT → Bool
  | .byteArray _ => true
  | .intArray _ => true
  | _ => false

/-- `v.size` of a numpy array: total element count (arrays decoded from NBT are
1-dimensional, so this is the length). -/
def shapeSize : NBT → Nat
  | .byteArray l => l.length
  | .intArray l => l.length
  | _ => 0

/-- Python `str.startswith`. -/
def strStarts (s p : String) : Bool :=
  s.toList.take p.toList.length == p.toList

/-- Python substring containment `needle in hay`. -/
def strContainsSub (hay nd : String) : Bool :=
  let h := hay.toList
  let n := nd.toList
  (List.range (h.length + 1)).any (fun i => (h.drop i).take n.length == n)

/-- `safe_check(obj, key)` from the source: `key in obj` with every exception
swallowed to `False`.  For a compound this is key membership; for a list tag it
is element equality against the key string (a `String` tag equals a `str`); for
a string tag it is substring containment; `in` on a scalar raises `TypeError`
(swallowed), and on a numpy array the string never equals an integer element. -/
def safe_check (obj : NBT) (k : String) : Bool :=
  match obj with
  | .compound kvs => hasKey kvs k
  | .list l => l.any (fun v => match v with | .string s => s == k | _ => false)
  | .string s => strContainsSub s k
  | _ => false

/-- Python `str(value)` on a tree node.  Integral tags subclass `int` and
render as plain decimal; string tags subclass `str` and render as themselves.
The composite renderings come from the external libraries' `repr`; the
stand-ins below are never evaluated by any claim. -/
def pyStr : NBT → String
  | .int n => toString n
  | .string s => s
  | .compound _ => "Compound(...)"
  | .list _ => "List(...)"
  | .byteArray _ => "ByteArray(...)"
  | .intArray _ => "IntArray(...)"

/-- `safe_to_string` from the source: both branches are `str(value)`. -/
def safe_to_string (v : NBT) : String := pyStr v

/-- `format_timestamp` from the source: a numeric value renders as
`"{raw} ({local date})"` (the local-time `strftime` text is external to the
model and replaced by a stand-in no claim evaluates); any other value renders
via `safe_to_string`.  The date formatting is wrapped in `try`, so the
function never raises. -/
def format_timestamp (v : NBT) : String :=
  match v with
  | .int n =>
      let r := toString n
      r ++ " (<local datetime>)"
  | _ => safe_to_string v

/-- One axis of a coordinate compound: `obj.get(a, '?')` fed to
`safe_to_string` (also the inlined `size.get('x', '?')` pattern of the
litematica region code). -/
def axisStr (kvs : List (String × NBT)) (a : String) : String :=
  match nbtGet kvs a with
  | some v => safe_to_string v
  | none => "?"

/-- The joined coordinate rendering `f"{x} x {y} x {z}"`. -/
def coordJoin (kvs : List (String × NBT)) : String :=
  let x := axisStr kvs "x"
  let y := axisStr kvs "y"
  let z := axisStr kvs "z"
  s!"{x} x {y} x {z}"

/-- Python subscription `obj[key]` with a string key: only a dict succeeds
(when the key is present); every other node kind raises. -/
def pyIndex : NBT → String → Except String NBT
  | .compound kvs, k =>
      match nbtGet kvs k with
      | some v => .ok v
      | none => .error "KeyError"
  | .list _, _ => .error "TypeError: list indices must be integers"
  | .string _, _ => .error "TypeError: string indices must be integers"
  | .byteArray _, _ => .error "IndexError: arrays take integer indices"
  | .intArray _, _ => .error "IndexError: arrays take integer indices"
  | .int _, _ => .error "TypeError: Int is not subscriptable"

/-- Python `len(v)`: defined for dict/list/str and numpy arrays, raises
`TypeError` for an integral scalar. -/
def pyLenE : NBT → Except String Nat
  | .int _ => .error "TypeError: object of type Int has no len"
  | .string s => .ok s.length
  | .compound kvs => .ok kvs.length
  | .list l => .ok l.length
  | .byteArray l => .ok l.length
  | .intArray l => .ok l.length

/-- `hasattr(v, '__len__')` followed by `len(v)`: `none` when the attribute is
missing (integral scalars). -/
def pyLenOpt (v : NBT) : Option Nat :=
  (pyLenE v).toOption

/-- Python truthiness of a tree node.  Scalars/strings/containers follow the
usual rules; a numpy array of more than one element raises `ValueError`
("truth value of an array is ambiguous"), a 0/1-element array reduces to its
content. -/
def pyTruthy : NBT → Except String Bool
  | .int n => .ok (n != 0)
  | .string s => .ok (s != "")
  | .compound kvs => .ok (!kvs.isEmpty)
  | .list l => .ok (!l.isEmpty)
  | .byteArray l =>
      if l.length > 1 then .error "ValueError: ambiguous truth value"
      else .ok (l.any (fun a => a != 0))
  | .intArray l =>
      if l.length > 1 then .error "ValueError: ambiguous truth value"
      else .ok (l.any (fun a => a != 0))

/-- `format_coordinates` restricted to a dict argument.  Both call sites in
the source (`EnclosingSize` and `Origin`) guard `isinstance(value, dict)`, and
on a dict the function cannot raise: a falsy (empty) dict returns `'unknown'`,
otherwise the three axes are extracted with default `'?'` and joined. -/
def format_coordinatesC (c : List (String × NBT)) : String :=
  if c.isEmpty then "unknown" else coordJoin c

/-- `format_coordinates` from the source.  The guard
`if not obj or not isinstance(obj, dict): return 'unknown'` evaluates `not
obj` outside the `try` block, so a multi-element numpy array raises
`ValueError` out of the function; any other falsy value, and any non-dict
whose truthiness is defined, returns `'unknown'`.  For a non-empty dict the
body joins the axes; nothing in the `try` block can raise for tree nodes, so
the `except` branch is unreachable. -/
def format_coordinates (obj : NBT) : Except String String :=
  match pyTruthy obj with
  | .error e => .error e
  | .ok false => .ok "unknown"
  | .ok true =>
      match obj with
      | .compound kvs => .ok (coordJoin kvs)
      | _ => .ok "unknown"

/-- The coordinate rendering applied by the metadata passes: the call sites
guard `isinstance(value, dict)`, so only the dict case of
`format_coordinates` is reachable there (see `format_coordinates_compound`);
the catch-all mirrors the function's non-raising non-dict result. -/
def fcOnDict : NBT → String
  | .compound c => format_coordinatesC c
  | _ => "unknown"

/-- Second probe's tail: `isinstance(schematic.get('Blocks'), dict) and
safe_check(schematic.get('Blocks', {}), 'Palette')`. -/
def nestedBlocksPalette : Option NBT → Bool
  | some (.compound b) => hasKey b "Palette"
  | _ => false

/-- Format detection over a compound root (source lines 108-125): the ordered
`if`/`elif` cascade of structural probes. -/
def detectFormatC (root : List (String × NBT)) : String :=
  if hasKey root "Palette" && hasKey root "BlockData" then "modern_worldedit"
  else if hasKey root "Blocks" && nestedBlocksPalette (nbtGet root "Blocks") then
    "modern_worldedit_nested"
  else if hasKey root "BlockData" || hasKey root "blocks" then "modern_alternate"
  else if hasKey root "Blocks" && hasKey root "Data" then "classic_worldedit"
  else if hasKey root "Regions" then "litematica"
  else "unknown"

/-- Format detection over an arbitrary root node.  For a compound this is
`detectFormatC`.  For a non-dict root the `safe_check` probes are tolerant, but
probe 2 calls `schematic.get('Blocks')` unguarded, which raises
`AttributeError` when `safe_check(schematic, 'Blocks')` succeeded on a
non-dict (a list containing the string tag `"Blocks"`, or a string containing
the substring `"Blocks"`). -/
def detectFormatN : NBT → Except String String
  | .compound kvs => .ok (detectFormatC kvs)
  | v =>
      if safe_check v "Palette" && safe_check v "BlockData" then .ok "modern_worldedit"
      else if safe_check v "Blocks" then .error "AttributeError: no attribute get"
      else if safe_check v "BlockData" || safe_check v "blocks" then .ok "modern_alternate"
      else if safe_check v "Regions" then .ok "litematica"
      else .ok "unknown"

/-- Spec-side key membership: the claim speaks of keys present at the root. -/
def specHasKey (kvs : List (String × NBT)) (k : String) : Bool :=
  (kvs.map Prod.fst).contains k

/-- Spec probe 1: Palette and BlockData both present. -/
def specProbe1 (root : List (String × NBT)) : Bool :=
  specHasKey root "Palette" && specHasKey root "BlockData"

/-- Spec probe 2: Blocks present, a compound, and containing Palette. -/
def specProbe2 (root : List (String × NBT)) : Bool :=
  match nbtGet root "Blocks" with
  | some (.compound b) => specHasKey b "Palette"
  | _ => false

/-- Spec probe 3: BlockData present or lowercase blocks present. -/
def specProbe3 (root : List (String × NBT)) : Bool :=
  specHasKey root "BlockData" || specHasKey root "blocks"

/-- Spec probe 4: Blocks and Data both present. -/
def specProbe4 (root : List (String × NBT)) : Bool :=
  specHasKey root "Blocks" && specHasKey root "Data"

/-- Spec probe 5: Regions present. -/
def specProbe5 (root : List (String × NBT)) : Bool :=
  specHasKey root "Regions"

/-- Modelled from the spec: the claim's ordered, first-match classification
into the six variants (spec section 4.1), to be compared with the source's
`detectFormatC`. -/
def specDetect (root : List (String × NBT)) : String :=
  if specProbe1 root then "modern_worldedit"
  else if specProbe2 root then "modern_worldedit_nested"
  else if specProbe3 root then "modern_alternate"
  else if specProbe4 root then "classic_worldedit"
  else if specProbe5 root then "litematica"
  else "unknown"

/-- One pipeline step's effect: result entries added, report lines added, and
an uncaught exception if one occurred inside the step (entries and lines
appended before the raise point are kept, as the source mutates in place). -/
abbrev StepOut := List (String × RVal) × List String × Option String

/-- Sequencing of pipeline steps: an uncaught exception skips the rest of the
straight-line pipeline (the outer `except` of `analyze_schematic` catches it
after all steps). -/
def seqStep (a b : StepOut) : StepOut :=
  match a.2.2 with
  | some _ => a
  | none => (a.1 ++ b.1, a.2.1 ++ b.2.1, b.2.2)

/-- `schematic.get('Width', schematic.get('width', 0))` (and height/length):
capitalised key first, lowercase fallback, Python int `0` when both are
absent.  The default `0` is conflated with the `Int 0` tag: both are the
integer zero for every operation the script performs on it. -/
def dimLookup (root : List (String × NBT)) (ku kl : String) : NBT :=
  (nbtGet root ku).getD ((nbtGet root kl).getD (NBT.int 0))

/-- Truthiness of `width and height and length` with Python's short-circuit
evaluation order. -/
def andTruthy3 (w h l : NBT) : Except String Bool :=
  match pyTruthy w with
  | .error e => .error e
  | .ok false => .ok false
  | .ok true =>
      match pyTruthy h with
      | .error e => .error e
      | .ok false => .ok false
      | .ok true => pyTruthy l

/-- `width * height * length` on integral tags (nbtlib scalars subclass `int`,
so the product is a plain Python int).  Operand kinds other than integers are
conservatively modelled as an analysis-aborting error; Python's sequence
repetition corner cases never arise under the claims' integer-dimension
hypotheses. -/
def pyMul3 : NBT → NBT → NBT → Except String Int
  | .int a, .int b, .int c => .ok (a * b * c)
  | _, _, _ => .error "TypeError: unsupported operand types for *"

/-- Dimension/volume extraction for non-litematica variants (source lines
170-185).  The `dimensions` record is stored only after the volume expression
evaluated without raising. -/
def dimsStep (root : List (String × NBT)) : StepOut :=
  let w := dimLookup root "Width" "width"
  let h := dimLookup root "Height" "height"
  let l := dimLookup root "Length" "length"
  let ws := pyStr w
  let hs := pyStr h
  let ls := pyStr l
  let dline := s!"Dimensions: {ws} x {hs} x {ls}"
  let mk := fun (v : Int) =>
    ([("dimensions", RVal.obj [("width", RVal.tag w), ("height", RVal.tag h),
        ("length", RVal.tag l), ("total_volume", RVal.i v)])],
     [dline, s!"Total volume: {v} blocks"], (none : Option String))
  match andTruthy3 w h l with
  | .error e => ([], [dline], some e)
  | .ok false => mk 0
  | .ok true =>
      match pyMul3 w h l with
      | .error e => ([], [dline], some e)
      | .ok v => mk v

/-- Region `Size` extraction (source lines 142-146): guarded by `safe_check`;
the value is subscripted and its axes read with `.get`, which raises on a
non-dict value before the report line is emitted. -/
def sizeP (r : NBT) : StepOut :=
  if safe_check r "Size" then
    match pyIndex r "Size" with
    | .error e => ([], [], some e)
    | .ok (.compound c) =>
        let s := coordJoin c
        ([("size", RVal.s s)], [s!"    Size: {s}"], none)
    | .ok _ => ([], [], some "AttributeError: no attribute get")
  else ([], [], none)

/-- Region `Position` extraction (source lines 148-152), same shape as
`sizeP`, with the report line parenthesised. -/
def posP (r : NBT) : StepOut :=
  if safe_check r "Position" then
    match pyIndex r "Position" with
    | .error e => ([], [], some e)
    | .ok (.compound c) =>
        let s := coordJoin c
        ([("position", RVal.s s)], [s!"    Position: ({s})"], none)
    | .ok _ => ([], [], some "AttributeError: no attribute get")
  else ([], [], none)

/-- Region list-count extraction (source lines 154-166 for `BlockEntities` and
`Entities`): guarded by `safe_check`, then truthiness, then `len`; the count is
recorded only for a present, truthy value. -/
def countP (r : NBT) (key outKey label : String) : StepOut :=
  if safe_check r key then
    match pyIndex r key with
    | .error e => ([], [], some e)
    | .ok v =>
        match pyTruthy v with
        | .error e => ([], [], some e)
        | .ok false => ([], [], none)
        | .ok true =>
            match pyLenE v with
            | .error e => ([], [], some e)
            | .ok n => ([(outKey, RVal.i n)], [s!"    {label}: {n}"], none)
  else ([], [], none)

/-- The four per-region extractions in source order. -/
def regionParts (r : NBT) : StepOut :=
  seqStep (seqStep (seqStep (sizeP r) (posP r))
    (countP r "BlockEntities" "block_entities_count" "Block Entities"))
    (countP r "Entities" "entities_count" "Entities")

/-- The optional field is absent or a compound. -/
def optCompound : Option NBT → Bool
  | none => true
  | some (.compound _) => true
  | some _ => false

/-- The optional field is absent or a list tag. -/
def optList : Option NBT → Bool
  | none => true
  | some (.list _) => true
  | some _ => false

/-- A region on which the per-region extraction provably cannot raise: a
compound whose `Size`/`Position` are absent or compounds and whose
`BlockEntities`/`Entities` are absent or list tags. -/
def tameRegion (r : NBT) : Bool :=
  match r with
  | .compound kvs =>
      optCompound (nbtGet kvs "Size") && optCompound (nbtGet kvs "Position") &&
      optList (nbtGet kvs "BlockEntities") && optList (nbtGet kvs "Entities")
  | _ => false

/-- The optional field is absent, or of a kind whose truthiness and `len`
are both defined and total (list, compound or string): on such a field the
count extraction cannot raise, whatever the value. -/
def sizedOk : Option NBT → Bool
  | none => true
  | some (.list _) => true
  | some (.compound _) => true
  | some (.string _) => true
  | some _ => false

/-- A region on which the per-region extraction provably cannot raise, in the
wider scope where the count fields may be any sized kind (not only lists):
`Size`/`Position` absent or compounds, `BlockEntities`/`Entities` absent or
list/compound/string. -/
def tameRegion2 (r : NBT) : Bool :=
  match r with
  | .compound kvs =>
      optCompound (nbtGet kvs "Size") && optCompound (nbtGet kvs "Position") &&
      sizedOk (nbtGet kvs "BlockEntities") && sizedOk (nbtGet kvs "Entities")
  | _ => false

/-- The region loop (source lines 137-168).  `result["regions"]` is mutated in
place, so regions completed before an uncaught exception are kept while the
raising region and all following ones are dropped. -/
def processRegions : List (String × NBT) → List (String × RVal) × List String × Option String
  | [] => ([], [], none)
  | (n, r) :: rest =>
      let header := s!"  - {n}:"
      let ri := regionParts r
      match ri.2.2 with
      | some e => ([], header :: ri.2.1, some e)
      | none =>
          let restO := processRegions rest
          ((n, RVal.obj ri.1) :: restO.1, (header :: ri.2.1) ++ restO.2.1, restO.2.2)

/-- The litematica branch of the dimension display (source lines 131-168):
`regions = schematic.get('Regions', {})` followed by `.items()` iteration,
which raises on a non-dict value after the header and the empty `regions`
record are already in place. -/
def regionsStep (root : List (String × NBT)) : StepOut :=
  match nbtGet root "Regions" with
  | some (.compound regs) =>
      let pr := processRegions regs
      ([("regions", RVal.obj pr.1)], "\nRegions:" :: pr.2.1, pr.2.2)
  | some _ =>
      ([("regions", RVal.obj [])], ["\nRegions:"], some "AttributeError: no attribute items")
  | none => ([("regions", RVal.obj [])], ["\nRegions:"], none)

/-- Palette iteration (source lines 197-202): `palette.items()` on a dict
yields every entry; on a non-dict the `AttributeError` is caught by the
section-local `try` and recorded as an error report line, leaving the
collected list empty. -/
def paletteItems (p : NBT) : List String × List RVal × List String :=
  match p with
  | .compound kvs =>
      (kvs.map (fun e =>
        let ids := pyStr e.2
        s!"  - {e.1} (ID: {ids})"),
       kvs.map (fun e => RVal.obj [("name", RVal.s e.1), ("id", RVal.tag e.2)]),
       [])
  | _ => ([], [], ["Error listing block types: AttributeError: no attribute items"])

/-- Modern WorldEdit block statistics (source lines 188-214): guarded on a
root `Palette`; `len(palette)` raises before any output on an integral scalar;
`BlockData`'s length is recorded only when the value has `__len__`. -/
def modernStats (root : List (String × NBT)) : StepOut :=
  match nbtGet root "Palette" with
  | none => ([], [], none)
  | some p =>
      match pyLenE p with
      | .error e => ([], [], some e)
      | .ok n =>
          let pi := paletteItems p
          let adds := [("block_stats", RVal.obj
            [("total_block_types", RVal.i n), ("blocks", RVal.arr pi.2.1)])]
          let lines := [s!"\nBlock types: {n}", "All block types:"] ++ pi.1 ++ pi.2.2
          match nbtGet root "BlockData" with
          | some bd =>
              match pyLenOpt bd with
              | some m =>
                  (adds ++ [("block_data_size", RVal.i m)],
                   lines ++ [s!"\nBlock data size: {m} bytes"], none)
              | none => (adds, lines, none)
          | none => (adds, lines, none)

/-- The classic `Blocks` count (source lines 221-231): a numpy array has a
(non-empty) `shape`, so its `size` is used; else a value with `__len__` uses
its length; else the string `"unknown"`.  Nothing in the `try` can raise for
tree nodes, so the `except` branch (`"unknown (error determining size)"`) is
unreachable. -/
def classicTotal : NBT → RVal
  | .byteArray a => RVal.i a.length
  | .intArray a => RVal.i a.length
  | .list a => RVal.i a.length
  | .compound kvs => RVal.i kvs.length
  | .string s => RVal.i s.length
  | .int _ => RVal.s "unknown"

/-- One optional length recording of the classic extractor (source pattern
`if safe_check(...): v = schematic[key]; if hasattr(v, '__len__'): record`):
the length is recorded only when the key is present and the value supports
`len`.  `sfx` is the report line's trailing text (`" bytes"` for the `Data`
line of source line 242, empty for the other two). -/
def optLenPart (root : List (String × NBT)) (key outKey label sfx : String) :
    List (String × RVal) × List String :=
  match nbtGet root key with
  | some d =>
      match pyLenOpt d with
      | some n => ([(outKey, RVal.i n)], [s!"{label}: {n}{sfx}"])
      | none => ([], [])
  | none => ([], [])

/-- Classic WorldEdit block statistics (source lines 215-257).  The three
optional lengths (`Data`, `TileEntities`, `Entities`) are recorded
independently, each only when present with `__len__`, and all inside the
`if safe_check(schematic, 'Blocks')` guard. -/
def classicStats (root : List (String × NBT)) : StepOut :=
  let l0 := ["\nBlock data available (classic format)"]
  match nbtGet root "Blocks" with
  | none => ([], l0, none)
  | some b =>
      let tot := classicTotal b
      let tline := match tot with
        | RVal.i n => s!"Total blocks: {n}"
        | _ => "Total blocks: unknown"
      let da := optLenPart root "Data" "block_data_size" "Block data size" " bytes"
      let te := optLenPart root "TileEntities" "tile_entities_count" "Tile entities" ""
      let en := optLenPart root "Entities" "entities_count" "Entities" ""
      ([("block_stats", RVal.obj [("total_blocks", tot)])] ++ da.1 ++ te.1 ++ en.1,
       l0 ++ [tline] ++ da.2 ++ te.2 ++ en.2, none)

/-- Block statistics dispatch (source lines 187-260). -/
def blockStatsStep (fmt : String) (root : List (String × NBT)) : StepOut :=
  if strStarts fmt "modern_worldedit" then modernStats root
  else if fmt == "classic_worldedit" then classicStats root
  else if fmt == "litematica" then ([], ["\nBlock data available in regions"], none)
  else ([], [], none)

/-- One root-metadata entry (source lines 268-293): skip `WorldEdit`; a dict
`EnclosingSize` renders through the coordinate formatter; the two timestamp
keys through the timestamp formatter; any other dict one level deep as a
placeholder plus its key names; anything else through `safe_to_string`. -/
def metaLineA (k : String) (v : NBT) : List (String × RVal) × List String :=
  if k == "WorldEdit" then ([], [])
  else if k == "EnclosingSize" && isCompoundB v then
    let cs := fcOnDict v
    ([(k, RVal.s cs)], [s!"  {k}: {cs}"])
  else if k == "TimeCreated" || k == "TimeModified" then
    let ts := format_timestamp v
    ([(k, RVal.s ts)], [s!"  {k}: {ts}"])
  else
    match v with
    | .compound c =>
        let ks := String.intercalate ", " (c.map Prod.fst)
        ([(k, RVal.obj [("keys", RVal.strList (c.map Prod.fst))])],
         [s!"  {k}: [complex object]", s!"    Keys: {ks}"])
    | _ =>
        let sv := safe_to_string v
        ([(k, RVal.s sv)], [s!"  {k}: {sv}"])

/-- The root-metadata loop body over all entries in order. -/
def processMetaA : List (String × NBT) → List (String × RVal) × List String
  | [] => ([], [])
  | (k, v) :: rest =>
      let e := metaLineA k v
      let r := processMetaA rest
      (e.1 ++ r.1, e.2 ++ r.2)

/-- Root metadata pass (source lines 263-293): the header line and the empty
`metadata` record are stored before `.items()` is called, which raises on a
non-dict `Metadata` value. -/
def metadataStep (root : List (String × NBT)) : StepOut :=
  match nbtGet root "Metadata" with
  | none => ([], [], none)
  | some (.compound m) =>
      let pm := processMetaA m
      ([("metadata", RVal.obj pm.1)], "\nMetadata:" :: pm.2, none)
  | some _ =>
      ([("metadata", RVal.obj [])], ["\nMetadata:"], some "AttributeError: no attribute items")

/-- One WorldEdit-metadata entry (source lines 301-316): a dict `Origin`
renders through the coordinate formatter; other dicts one level deep; anything
else through `safe_to_string`. -/
def metaLineW (k : String) (v : NBT) : List (String × RVal) × List String :=
  if k == "Origin" && isCompoundB v then
    let cs := fcOnDict v
    ([(k, RVal.s cs)], [s!"  {k}: {cs}"])
  else
    match v with
    | .compound c =>
        let ks := String.intercalate ", " (c.map Prod.fst)
        ([(k, RVal.obj [("keys", RVal.strList (c.map Prod.fst))])],
         [s!"  {k}: [complex object]", s!"    Keys: {ks}"])
    | _ =>
        let sv := safe_to_string v
        ([(k, RVal.s sv)], [s!"  {k}: {sv}"])

/-- The WorldEdit-metadata loop body over all entries in order. -/
def processMetaW : List (String × NBT) → List (String × RVal) × List String
  | [] => ([], [])
  | (k, v) :: rest =>
      let e := metaLineW k v
      let r := processMetaW rest
      (e.1 ++ r.1, e.2 ++ r.2)

/-- WorldEdit metadata pass (source lines 296-316): guarded by two
`safe_check`s; the header and the empty record are stored before
`schematic['Metadata']['WorldEdit']` is subscripted and iterated, either of
which raises on unexpected kinds. -/
def weStep (root : List (String × NBT)) : StepOut :=
  match nbtGet root "Metadata" with
  | none => ([], [], none)
  | some mv =>
      if safe_check mv "WorldEdit" then
        match pyIndex mv "WorldEdit" with
        | .error e =>
            ([("worldedit_metadata", RVal.obj [])], ["\nWorldEdit Metadata:"], some e)
        | .ok (.compound w) =>
            let pw := processMetaW w
            ([("worldedit_metadata", RVal.obj pw.1)], "\nWorldEdit Metadata:" :: pw.2, none)
        | .ok _ =>
            ([("worldedit_metadata", RVal.obj [])], ["\nWorldEdit Metadata:"],
             some "AttributeError: no attribute items")
      else ([], [], none)

/-- The reserved key list of the residual reporter (source line 322). -/
def reservedKeys : List String :=
  ["Palette", "BlockData", "Blocks", "Data", "Regions", "Metadata"]

/-- The residual loop (source lines 320-332): collects every non-reserved
direct key in order and emits one or two report lines per such key. -/
def residualScan : List (String × NBT) → List String × List String
  | [] => ([], [])
  | (k, v) :: rest =>
      let r := residualScan rest
      if reservedKeys.contains k then r
      else
        let lines := match v with
          | .compound c =>
              let ks := String.intercalate ", " (c.map Prod.fst)
              [s!"  {k}: [complex object]", s!"    Keys: {ks}"]
          | _ =>
              let sv := safe_to_string v
              [s!"  {k}: {sv}"]
        (k :: r.1, lines ++ r.2)

/-- Residual key reporting (source lines 318-337): the `additional_nbt_keys`
field is stored only when at least one non-reserved key exists; otherwise only
the "No additional NBT data found" report line is emitted. -/
def residualStep (root : List (String × NBT)) : StepOut :=
  let sc := residualScan root
  (if sc.1.isEmpty then [] else [("additional_nbt_keys", RVal.strList sc.1)],
   "\nAdditional NBT Data:" :: sc.2 ++
     (if sc.1.isEmpty then ["  No additional NBT data found"] else []),
   none)

/-- Modelled from the spec: the reserved keys that a detected variant's
extraction actually reads (spec section 8's "variant-specific consumed keys"
restricted to the reserved set). -/
def variantReadSet (fmt : String) : List String :=
  if strStarts fmt "modern_worldedit" then ["Palette", "BlockData"]
  else if fmt == "classic_worldedit" then ["Blocks", "Data"]
  else if fmt == "litematica" then ["Regions"]
  else []

/-- Modelled from the spec: the "variant-specific consumed keys" of the
residual-key claim — every root key whose value the detected variant's
extraction retrieves: the six dimension keys for non-litematica variants (or
`Regions` for litematica), plus the block-statistics keys the variant reads,
each counted only when present. -/
def consumedKeys (fmt : String) (root : List (String × NBT)) : List String :=
  (if fmt == "litematica" then (["Regions"].filter (fun k => hasKey root k))
   else (["Width", "width", "Height", "height", "Length", "length"].filter
     (fun k => hasKey root k)))
  ++ (if strStarts fmt "modern_worldedit" then
        (["Palette", "BlockData"].filter (fun k => hasKey root k))
      else if fmt == "classic_worldedit" then
        (["Blocks"].filter (fun k => hasKey root k))
        ++ (if hasKey root "Blocks" then
              (["Data", "TileEntities", "Entities"].filter (fun k => hasKey root k))
            else [])
      else [])

/-- The three effective dimension nodes are integral scalars (holds in
particular whenever the six dimension keys are absent or integral). -/
def dimsInt (root : List (String × NBT)) : Bool :=
  isIntB (dimLookup root "Width" "width") &&
  isIntB (dimLookup root "Height" "height") &&
  isIntB (dimLookup root "Length" "length")

/-- A root `Palette` that `len` accepts (anything but an integral scalar). -/
def paletteOk (root : List (String × NBT)) : Bool :=
  match nbtGet root "Palette" with
  | some (.int _) => false
  | _ => true

/-- `Metadata` absent or a compound whose `WorldEdit` entry is absent or a
compound: both metadata passes complete without an uncaught exception. -/
def metadataOk (root : List (String × NBT)) : Bool :=
  match nbtGet root "Metadata" with
  | none => true
  | some (.compound m) =>
      (match nbtGet m "WorldEdit" with
        | none => true | some (.compound _) => true | some _ => false)
  | some _ => false

/-- `Regions` is a compound of tame regions. -/
def regionsOk (root : List (String × NBT)) : Bool :=
  match nbtGet root "Regions" with
  | some (.compound regs) => regs.all (fun p => tameRegion p.2)
  | _ => false

/-- A root compound on which the whole extraction pipeline provably completes
without an uncaught exception. -/
def tameRoot (root : List (String × NBT)) : Bool :=
  let fmt := detectFormatC root
  (if fmt == "litematica" then regionsOk root else dimsInt root) &&
  (!(strStarts fmt "modern_worldedit") || paletteOk root) &&
  metadataOk root

/-- The straight-line extraction pipeline on a compound root (source lines
108-339): Detect, Dimensions-or-Regions, BlockStats, Metadata,
WorldEdit-Metadata, Residuals; an uncaught exception in any step skips the
remaining steps.  The closing banner line is emitted only when no exception
occurred. -/
def analyzeTree (root : List (String × NBT)) : StepOut :=
  let fmt := detectFormatC root
  let s0 : StepOut := ([("format", RVal.s fmt)], [s!"Format: {fmt}"], none)
  let s1 := seqStep s0 (if fmt == "litematica" then regionsStep root else dimsStep root)
  let s2 := seqStep s1 (blockStatsStep fmt root)
  let s3 := seqStep s2 (metadataStep root)
  let s4 := seqStep s3 (weStep root)
  let s5 := seqStep s4 (residualStep root)
  match s5.2.2 with
  | none => (s5.1, s5.2.1 ++ ["\n=== End of analysis ==="], none)
  | some _ => s5

/-- First two bytes are the gzip magic `0x1f 0x8b`. -/
def isGzMagic (raw : List Nat) : Bool :=
  raw.getD 0 0 == 0x1f && raw.getD 1 0 == 0x8b

/-- The whole per-file analysis (source lines 48-353), with the external
collaborators passed in: `gunzip` models `gzip.decompress` and `parse` models
`nbtlib.File.parse` (returning the file's own gzip flag and the root compound's
entries).  File identity fields come from the caller.  The function returns the
structured result record and the ordered report lines. -/
def analyze_schematic (fileName filePath : String) (fileSize : Int)
    (analysisTime : String) (raw : List Nat)
    (gunzip : List Nat → Except String (List Nat))
    (parse : List Nat → Except String (Bool × List (String × NBT))) :
    List (String × RVal) × List String :=
  let base := [("file_name", RVal.s fileName), ("file_path", RVal.s filePath),
    ("file_size", RVal.i fileSize), ("analysis_time", RVal.s analysisTime)]
  let out0 := [s!"\n=== Analyzing file: {fileName} ===", s!"File path: {filePath}",
    s!"File size: {fileSize} bytes"]
  let indexErr :=
    (base ++ [("error", RVal.s "Error analyzing file: IndexError")],
     out0 ++ ["Error analyzing file: IndexError", "<traceback>"])
  let run := fun (isG : Bool) =>
    let compLab := if isG then "gzipped" else "not gzipped"
    let res1 := base ++ [("compression", RVal.s compLab)]
    let out1 := out0 ++ [s!"File compression: {compLab}"]
    let afterDecomp := fun (res : List (String × RVal)) (out : List String)
        (fd : List Nat) =>
      match parse fd with
      | .error e =>
          (res ++ [("error", RVal.s ("Error parsing NBT data: " ++ e))],
           out ++ ["Error parsing NBT data: " ++ e])
      | .ok (gz, kvs) =>
          let out2 := out ++ [s!"NBT format: {gz}"]
          match (nbtGet kvs "Schematic").getD (NBT.compound kvs) with
          | .compound rootKvs =>
              let t := analyzeTree rootKvs
              match t.2.2 with
              | none => (res ++ t.1, out2 ++ t.2.1)
              | some e =>
                  (res ++ t.1 ++ [("error", RVal.s ("Error analyzing file: " ++ e))],
                   out2 ++ t.2.1 ++ ["Error analyzing file: " ++ e, "<traceback>"])
          | v =>
              -- A non-dict `Schematic` value: detection may already raise at
              -- probe 2's `.get`; otherwise the dimension/region step's first
              -- `.get` raises.  Either way the analysis aborts here.
              match detectFormatN v with
              | .error e =>
                  (res ++ [("error", RVal.s ("Error analyzing file: " ++ e))],
                   out2 ++ ["Error analyzing file: " ++ e, "<traceback>"])
              | .ok fmt =>
                  (res ++ [("format", RVal.s fmt),
                    ("error", RVal.s "Error analyzing file: AttributeError: no attribute get")],
                   out2 ++ [s!"Format: {fmt}",
                    "Error analyzing file: AttributeError: no attribute get", "<traceback>"])
    if isG then
      match gunzip raw with
      | .error e =>
          (res1 ++ [("error", RVal.s ("Error decompressing file: " ++ e))],
           out1 ++ ["Error decompressing file: " ++ e])
      | .ok fd =>
          afterDecomp (res1 ++ [("decompressed_size", RVal.i fd.length)])
            (out1 ++ [s!"Decompressed size: {fd.length} bytes"]) fd
    else afterDecomp res1 out1 raw
  -- `raw_data[0] == 0x1f and raw_data[1] == 0x8b`: an empty file raises
  -- `IndexError` at `raw_data[0]`; a 1-byte file raises at `raw_data[1]` only
  -- when its single byte is `0x1f` (the `and` short-circuits otherwise, and
  -- the file proceeds as not gzipped).  The `IndexError` is caught by the
  -- outer handler.
  if raw.length = 0 then indexErr
  else if raw.length = 1 then
    if raw.getD 0 0 == 0x1f then indexErr else run false
  else run (isGzMagic raw)

/-! ## Helper lemmas -/

/-- `safe_check` on a dict agrees with key membership at the root. -/
theorem hasKey_eq_spec (kvs : List (String × NBT)) (k : String) :
    hasKey kvs k = specHasKey kvs k := by
  induction kvs with
  | nil => rfl
  | cons p t ih =>
      obtain ⟨ka, v⟩ := p
      by_cases h : ka = k
      · subst h
        simp [hasKey, nbtGet, specHasKey, List.contains_cons]
      · have hb : (ka == k) = false := by simp [h]
        have hb2 : (k == ka) = false := by
          simp [beq_iff_eq]
          exact fun hk => h hk.symm
        simp only [hasKey, nbtGet, hb, if_false, specHasKey, List.map_cons,
          List.contains_cons, hb2, Bool.false_or]
        exact ih

theorem hasKey_iff_mem (kvs : List (String × NBT)) (k : String) :
    hasKey kvs k = true ↔ k ∈ kvs.map Prod.fst := by
  rw [hasKey_eq_spec]
  simp [specHasKey]

/-- Probe 2 of the source equals the spec's probe 2. -/
theorem probe2_eq_spec (root : List (String × NBT)) :
    (hasKey root "Blocks" && nestedBlocksPalette (nbtGet root "Blocks")) = specProbe2 root := by
  cases h : nbtGet root "Blocks" with
  | none => simp [hasKey, h, specProbe2, nestedBlocksPalette]
  | some v =>
      have h1 : hasKey root "Blocks" = true := by simp [hasKey, h]
      cases v with
      | compound b =>
          simp only [h, h1, nestedBlocksPalette, specProbe2, Bool.true_and]
          exact hasKey_eq_spec b "Palette"
      | list l => simp [h, h1, specProbe2, nestedBlocksPalette]
      | byteArray a => simp [h, h1, specProbe2, nestedBlocksPalette]
      | intArray a => simp [h, h1, specProbe2, nestedBlocksPalette]
      | string s => simp [h, h1, specProbe2, nestedBlocksPalette]
      | int n => simp [h, h1, specProbe2, nestedBlocksPalette]

/-! ## C1 -/

/-- C1: format detection classifies the root compound by the ordered,
first-match sequence of the six probes of the spec (`specDetect`), the result
is one of the six variant names, and detection on a compound root never raises
(the tolerant probes return, they do not abort). -/
theorem c1_format_detection (root : List (String × NBT)) :
    detectFormatC root = specDetect root ∧
    detectFormatN (NBT.compound root) = Except.ok (detectFormatC root) ∧
    (detectFormatC root = "modern_worldedit" ∨
     detectFormatC root = "modern_worldedit_nested" ∨
     detectFormatC root = "modern_alternate" ∨
     detectFormatC root = "classic_worldedit" ∨
     detectFormatC root = "litematica" ∨
     detectFormatC root = "unknown") := by
  refine ⟨?_, rfl, ?_⟩
  · unfold detectFormatC specDetect
    rw [← probe2_eq_spec]
    simp only [specProbe1, specProbe3, specProbe4, specProbe5,
      ← hasKey_eq_spec]
  · unfold detectFormatC
    repeat' split
    all_goals simp

/-! ## C4 and C9 -/

/-- On a dict argument `format_coordinates` cannot raise and agrees with its
dict specialisation. -/
theorem format_coordinates_compound (kvs : List (String × NBT)) :
    format_coordinates (NBT.compound kvs) = Except.ok (format_coordinatesC kvs) := by
  cases kvs with
  | nil => rfl
  | cons p t => rfl

/-- C4 counterexample: an axis that is present but of unexpected (string) type
is rendered through `str`, not substituted by `"?"` as the claim states. -/
theorem c4_cex :
    format_coordinates (NBT.compound
      [("x", NBT.string "abc"), ("y", NBT.int 2), ("z", NBT.int 3)]) =
      Except.ok "abc x 2 x 3" ∧
    ("abc x 2 x 3" : String) ≠ "? x 2 x 3" := by
  refine ⟨?_, by decide⟩
  rw [show ("abc x 2 x 3" : String) =
    coordJoin [("x", NBT.string "abc"), ("y", NBT.int 2), ("z", NBT.int 3)] from by decide]
  rfl

/-- C4 (amended): on a non-empty compound the formatter does not raise and
joins the three axes as `"x x y x z"`; an axis is rendered `"?"` exactly when
it is absent; a present numeric axis renders as its plain decimal string; any
present axis of any other kind renders through the generic string conversion
(never `"?"`). -/
theorem c4_coordinate_formatter (kvs : List (String × NBT)) (hne : kvs ≠ []) :
    format_coordinates (NBT.compound kvs) = Except.ok (coordJoin kvs) ∧
    (∀ a, nbtGet kvs a = none → axisStr kvs a = "?") ∧
    (∀ a n, nbtGet kvs a = some (NBT.int n) → axisStr kvs a = toString n) ∧
    (∀ a v, nbtGet kvs a = some v → axisStr kvs a = safe_to_string v) := by
  refine ⟨?_, ?_, ?_, ?_⟩
  · cases kvs with
    | nil => exact absurd rfl hne
    | cons p t => rfl
  · intro a ha
    simp [axisStr, ha]
  · intro a n ha
    simp [axisStr, ha, safe_to_string, pyStr]
  · intro a v ha
    simp [axisStr, ha]

/-- C4 witness: the claim's own worked example `{x:1, z:3} -> "1 x ? x 3"`,
with the missing `y` axis degrading to `"?"` independently. -/
theorem c4_coordinate_formatter_w :
    format_coordinates (NBT.compound [("x", NBT.int 1), ("z", NBT.int 3)]) =
      Except.ok "1 x ? x 3" ∧
    axisStr [("x", NBT.int 1), ("z", NBT.int 3)] "y" = "?" := by
  have h := c4_coordinate_formatter [("x", NBT.int 1), ("z", NBT.int 3)]
    (List.cons_ne_nil _ _)
  refine ⟨h.1.trans ?_, h.2.1 "y" rfl⟩
  rw [show coordJoin [("x", NBT.int 1), ("z", NBT.int 3)] = "1 x ? x 3" from by decide]

/-- C9 counterexample: a multi-element array input makes the source's
`not obj` pre-check (evaluated outside the `try` block) raise `ValueError`,
so the formatter raises instead of returning `'unknown'`. -/
theorem c9_cex :
    format_coordinates (NBT.byteArray [1, 2]) =
      Except.error "ValueError: ambiguous truth value" ∧
    format_coordinates (NBT.byteArray [1, 2]) ≠ Except.ok "unknown" := by
  refine ⟨rfl, ?_⟩
  intro hcon
  exact Except.noConfusion hcon

/-- C9 (amended): the coordinate formatter returns `'unknown'` — never a
`"? x ? x ?"` rendering — for the empty (falsy) compound and for every
non-compound input whose truthiness is defined; a multi-element array input
instead raises the `ValueError` of the truthiness pre-check; the per-axis
`"?"` degradation applies exactly to non-empty compound inputs. -/
theorem c9_formatter_unknown :
    format_coordinates (NBT.compound []) = Except.ok "unknown" ∧
    format_coordinates (NBT.compound []) ≠ Except.ok "? x ? x ?" ∧
    (∀ v t, isCompoundB v = false → pyTruthy v = Except.ok t →
      format_coordinates v = Except.ok "unknown") ∧
    (∀ v e, pyTruthy v = Except.error e → format_coordinates v = Except.error e) ∧
    (∀ kvs, kvs ≠ [] →
      format_coordinates (NBT.compound kvs) = Except.ok (coordJoin kvs)) := by
  refine ⟨rfl, ?_, ?_, ?_, ?_⟩
  · intro hcon
    injection hcon with h2
    exact absurd h2 (by decide)
  · intro v t hnc ht
    cases t with
    | false => simp [format_coordinates, ht]
    | true =>
        cases v with
        | compound kvs => simp [isCompoundB] at hnc
        | list l => simp [format_coordinates, ht]
        | byteArray a => simp [format_coordinates, ht]
        | intArray a => simp [format_coordinates, ht]
        | string s => simp [format_coordinates, ht]
        | int n => simp [format_coordinates, ht]
  · intro v e he
    simp [format_coordinates, he]
  · intro kvs hne
    cases kvs with
    | nil => exact absurd rfl hne
    | cons p t => rfl

/-- C9 witness: a truthy scalar input returns `'unknown'` and a non-empty
compound gets the per-axis rendering. -/
theorem c9_formatter_unknown_w :
    format_coordinates (NBT.int 7) = Except.ok "unknown" ∧
    format_coordinates (NBT.compound [("x", NBT.int 5)]) = Except.ok "5 x ? x ?" := by
  refine ⟨c9_formatter_unknown.2.2.1 (NBT.int 7) true rfl rfl, ?_⟩
  have h := c9_formatter_unknown.2.2.2.2 [("x", NBT.int 5)] (List.cons_ne_nil _ _)
  refine h.trans ?_
  rw [show coordJoin [("x", NBT.int 5)] = "5 x ? x ?" from by decide]

/-! ## C2 -/

/-- C2 counterexample: a stored negative dimension (`Width = -1`) yields a
negative `total_volume` on a non-litematica input, refuting "the computed
volume is never negative". -/
theorem c2_cex :
    (dimsStep [("Width", NBT.int (-1)), ("Height", NBT.int 1), ("Length", NBT.int 1)]).1 =
      [("dimensions", RVal.obj [("width", RVal.tag (NBT.int (-1))),
        ("height", RVal.tag (NBT.int 1)), ("length", RVal.tag (NBT.int 1)),
        ("total_volume", RVal.i (-1))])] ∧
    (-1 : Int) < 0 ∧
    detectFormatC [("Width", NBT.int (-1)), ("Height", NBT.int 1), ("Length", NBT.int 1)] ≠
      "litematica" := by
  exact ⟨rfl, by decide, by decide⟩

/-- C2 (amended): for every non-litematica input with integral effective
dimensions, the extractor never raises, records the three dimension tags with
the capitalised key winning and 0 substituted when both case variants are
absent, and computes `total_volume = w*h*l` exactly when all three are
non-zero and 0 otherwise; the volume is non-negative whenever the dimension
values are non-negative (a negative stored dimension yields a negative
volume). -/
theorem c2_dimensions (root : List (String × NBT)) (w h l : Int)
    (_hfmt : detectFormatC root ≠ "litematica")
    (hw : dimLookup root "Width" "width" = NBT.int w)
    (hh : dimLookup root "Height" "height" = NBT.int h)
    (hl : dimLookup root "Length" "length" = NBT.int l) :
    (dimsStep root).2.2 = none ∧
    (dimsStep root).1 = [("dimensions", RVal.obj
      [("width", RVal.tag (NBT.int w)), ("height", RVal.tag (NBT.int h)),
       ("length", RVal.tag (NBT.int l)),
       ("total_volume", RVal.i (if w ≠ 0 ∧ h ≠ 0 ∧ l ≠ 0 then w * h * l else 0))])] ∧
    (0 ≤ w → 0 ≤ h → 0 ≤ l →
      0 ≤ (if w ≠ 0 ∧ h ≠ 0 ∧ l ≠ 0 then w * h * l else 0)) ∧
    (∀ v, nbtGet root "Width" = some v → dimLookup root "Width" "width" = v) ∧
    (nbtGet root "Width" = none → nbtGet root "width" = none →
      dimLookup root "Width" "width" = NBT.int 0) := by
  have hcase : ∀ (P : StepOut → Prop),
      (∀ v : Int, v = (if w ≠ 0 ∧ h ≠ 0 ∧ l ≠ 0 then w * h * l else 0) →
        P ([("dimensions", RVal.obj
          [("width", RVal.tag (NBT.int w)), ("height", RVal.tag (NBT.int h)),
           ("length", RVal.tag (NBT.int l)), ("total_volume", RVal.i v)])],
          [s!"Dimensions: {pyStr (NBT.int w)} x {pyStr (NBT.int h)} x {pyStr (NBT.int l)}",
           s!"Total volume: {v} blocks"], none)) →
      P (dimsStep root) := by
    intro P hP
    unfold dimsStep
    rw [hw, hh, hl]
    simp only [andTruthy3, pyTruthy, pyMul3]
    by_cases hw0 : w = 0
    · have hbw : (w != 0) = false := by simp [hw0]
      simp only [hbw]
      exact hP 0 (by simp [hw0])
    · have hbw : (w != 0) = true := by simp [hw0]
      by_cases hh0 : h = 0
      · have hbh : (h != 0) = false := by simp [hh0]
        simp only [hbw, hbh]
        exact hP 0 (by simp [hh0])
      · have hbh : (h != 0) = true := by simp [hh0]
        by_cases hl0 : l = 0
        · have hbl : (l != 0) = false := by simp [hl0]
          simp only [hbw, hbh, hbl]
          exact hP 0 (by simp [hl0])
        · have hbl : (l != 0) = true := by simp [hl0]
          simp only [hbw, hbh, hbl]
          exact hP (w * h * l) (by simp [hw0, hh0, hl0])
  refine ⟨?_, ?_, ?_, ?_, ?_⟩
  · exact hcase (fun st => st.2.2 = none) (fun v hv => rfl)
  · exact hcase (fun st => st.1 = [("dimensions", RVal.obj
      [("width", RVal.tag (NBT.int w)), ("height", RVal.tag (NBT.int h)),
       ("length", RVal.tag (NBT.int l)),
       ("total_volume", RVal.i (if w ≠ 0 ∧ h ≠ 0 ∧ l ≠ 0 then w * h * l else 0))])])
      (fun v hv => by rw [hv])
  · intro h1 h2 h3
    split
    · exact mul_nonneg (mul_nonneg h1 h2) h3
    · exact le_refl 0
  · intro v hv
    simp [dimLookup, hv]
  · intro h1 h2
    simp [dimLookup, h1, h2]

/-- C2 witness: capitalised `Width` wins, a zero lowercase `height` forces
volume 0, and nothing raises. -/
theorem c2_dimensions_w :
    (dimsStep [("Width", NBT.int 2), ("height", NBT.int 0), ("Length", NBT.int 5)]).2.2 = none ∧
    (dimsStep [("Width", NBT.int 2), ("height", NBT.int 0), ("Length", NBT.int 5)]).1 =
      [("dimensions", RVal.obj
        [("width", RVal.tag (NBT.int 2)), ("height", RVal.tag (NBT.int 0)),
         ("length", RVal.tag (NBT.int 5)), ("total_volume", RVal.i 0)])] := by
  have h := c2_dimensions [("Width", NBT.int 2), ("height", NBT.int 0), ("Length", NBT.int 5)]
    2 0 5 (by decide) rfl rfl rfl
  exact ⟨h.1, h.2.1.trans (by norm_num)⟩

/-! ## C3 -/

/-- The residual loop collects exactly the non-reserved direct keys, in
order. -/
theorem residualScan_keys (root : List (String × NBT)) :
    (residualScan root).1 = (root.map Prod.fst).filter (fun k => !(reservedKeys.contains k)) := by
  induction root with
  | nil => rfl
  | cons p t ih =>
      obtain ⟨k, v⟩ := p
      by_cases hm : k ∈ reservedKeys
      · have h : reservedKeys.contains k = true := by simpa using hm
        cases v <;> simp [residualScan, h, hm, ih]
      · have h : reservedKeys.contains k = false := by simpa using hm
        cases v <;> simp [residualScan, h, hm, ih]

/-- Generic membership characterisation of the union
consumed ∪ residual ∪ Metadata, given a candidate list `cand` of keys the
variant reads and the reserved read set `V` of the variant. -/
theorem mem_union_char (root : List (String × NBT)) (consumed cand V : List String)
    (hmem : ∀ q, q ∈ consumed ↔ (q ∈ cand ∧ hasKey root q = true))
    (hc : ∀ q ∈ cand, reservedKeys.contains q = false ∨ q ∈ V)
    (hv : ∀ q ∈ V, q ∈ cand) (k : String) :
    (k ∈ consumed ∨ k ∈ (residualScan root).1 ∨
      (k = "Metadata" ∧ hasKey root "Metadata" = true)) ↔
    (k ∈ root.map Prod.fst ∧ (reservedKeys.contains k = false ∨
      k ∈ V ∨ k = "Metadata")) := by
  rw [residualScan_keys]
  constructor
  · rintro (hx | hx | ⟨rfl, hx⟩)
    · rcases (hmem k).mp hx with ⟨hcand, hk⟩
      exact ⟨(hasKey_iff_mem root k).mp hk,
        (hc k hcand).elim Or.inl (fun hV => Or.inr (Or.inl hV))⟩
    · rw [List.mem_filter] at hx
      refine ⟨hx.1, Or.inl ?_⟩
      simpa using hx.2
    · exact ⟨(hasKey_iff_mem root "Metadata").mp hx, Or.inr (Or.inr rfl)⟩
  · rintro ⟨hk, (hd | hd | rfl)⟩
    · refine Or.inr (Or.inl ?_)
      rw [List.mem_filter]
      exact ⟨hk, by simpa using hd⟩
    · refine Or.inl ((hmem k).mpr ⟨hv k hd, (hasKey_iff_mem root k).mpr hk⟩)
    · exact Or.inr (Or.inr ⟨rfl, (hasKey_iff_mem root "Metadata").mpr hk⟩)

/-- C3 counterexample: under `modern_worldedit`, a root `Data` key is neither
consumed by the variant, nor residual (it is reserved), nor the Metadata key —
so the claimed union falls short of the full key set. -/
theorem c3_cex :
    "Data" ∈ ([("Palette", NBT.compound []), ("BlockData", NBT.byteArray []),
      ("Data", NBT.byteArray [])].map Prod.fst) ∧
    "Data" ∉ consumedKeys
      (detectFormatC [("Palette", NBT.compound []), ("BlockData", NBT.byteArray []),
        ("Data", NBT.byteArray [])])
      [("Palette", NBT.compound []), ("BlockData", NBT.byteArray []),
        ("Data", NBT.byteArray [])] ∧
    "Data" ∉ (residualScan [("Palette", NBT.compound []), ("BlockData", NBT.byteArray []),
      ("Data", NBT.byteArray [])]).1 ∧
    ("Data" : String) ≠ "Metadata" := by
  refine ⟨by decide, by decide, by decide, by decide⟩

/-- C3 (amended): the residual reporter records as additional keys exactly the
direct root keys outside the reserved set, and the union
consumed ∪ residual ∪ Metadata covers a root key exactly when the key is
non-reserved, or the detected variant reads it, or it is `Metadata` — i.e. the
union equals the full key set minus the present reserved keys that the
detected variant's extraction does not read. -/
theorem c3_residual_union (root : List (String × NBT)) :
    (residualScan root).1 = (root.map Prod.fst).filter (fun k => !(reservedKeys.contains k)) ∧
    (∀ k, (k ∈ consumedKeys (detectFormatC root) root ∨ k ∈ (residualScan root).1 ∨
        (k = "Metadata" ∧ hasKey root "Metadata" = true)) ↔
      (k ∈ root.map Prod.fst ∧ (reservedKeys.contains k = false ∨
        k ∈ variantReadSet (detectFormatC root) ∨ k = "Metadata"))) := by
  refine ⟨residualScan_keys root, ?_⟩
  unfold detectFormatC
  split_ifs with h1 h2 h3 h4 h5
  · -- modern_worldedit
    have ha : (("modern_worldedit" : String) == "litematica") = false := by decide
    have hb : strStarts "modern_worldedit" "modern_worldedit" = true := by decide
    have hmem : ∀ q, q ∈ consumedKeys "modern_worldedit" root ↔
        (q ∈ ["Width", "width", "Height", "height", "Length", "length",
          "Palette", "BlockData"] ∧ hasKey root q = true) := by
      intro q
      simp only [consumedKeys, ha, hb, Bool.false_eq_true, if_false, if_true,
        List.mem_append, List.mem_filter]
      constructor
      · rintro (h | h) <;>
          (rcases h with ⟨hm, hk⟩; refine ⟨?_, hk⟩; simp at hm ⊢; tauto)
      · rintro ⟨hm, hk⟩
        simp at hm
        rcases hm with h|h|h|h|h|h|h|h <;> subst h <;> simp [hk]
    have e2 : variantReadSet "modern_worldedit" = ["Palette", "BlockData"] := by decide
    intro k
    rw [e2]
    exact mem_union_char root _ _ ["Palette", "BlockData"] hmem (by decide) (by decide) k
  · -- modern_worldedit_nested
    have ha : (("modern_worldedit_nested" : String) == "litematica") = false := by decide
    have hb : strStarts "modern_worldedit_nested" "modern_worldedit" = true := by decide
    have hmem : ∀ q, q ∈ consumedKeys "modern_worldedit_nested" root ↔
        (q ∈ ["Width", "width", "Height", "height", "Length", "length",
          "Palette", "BlockData"] ∧ hasKey root q = true) := by
      intro q
      simp only [consumedKeys, ha, hb, Bool.false_eq_true, if_false, if_true,
        List.mem_append, List.mem_filter]
      constructor
      · rintro (h | h) <;>
          (rcases h with ⟨hm, hk⟩; refine ⟨?_, hk⟩; simp at hm ⊢; tauto)
      · rintro ⟨hm, hk⟩
        simp at hm
        rcases hm with h|h|h|h|h|h|h|h <;> subst h <;> simp [hk]
    have e2 : variantReadSet "modern_worldedit_nested" = ["Palette", "BlockData"] := by decide
    intro k
    rw [e2]
    exact mem_union_char root _ _ ["Palette", "BlockData"] hmem (by decide) (by decide) k
  · -- modern_alternate
    have ha : (("modern_alternate" : String) == "litematica") = false := by decide
    have hb : strStarts "modern_alternate" "modern_worldedit" = false := by decide
    have hcc : (("modern_alternate" : String) == "classic_worldedit") = false := by decide
    have hmem : ∀ q, q ∈ consumedKeys "modern_alternate" root ↔
        (q ∈ ["Width", "width", "Height", "height", "Length", "length"] ∧
          hasKey root q = true) := by
      intro q
      simp only [consumedKeys, ha, hb, hcc, Bool.false_eq_true, if_false, if_true,
        List.mem_append, List.mem_filter, List.append_nil, List.not_mem_nil, or_false]
    have e2 : variantReadSet "modern_alternate" = [] := by decide
    intro k
    rw [e2]
    exact mem_union_char root _ _ [] hmem (by decide) (by decide) k
  · -- classic_worldedit
    have hB : hasKey root "Blocks" = true := by
      rcases Bool.and_eq_true_iff.mp h4 with ⟨hb, _⟩
      exact hb
    have ha : (("classic_worldedit" : String) == "litematica") = false := by decide
    have hb : strStarts "classic_worldedit" "modern_worldedit" = false := by decide
    have hcc : (("classic_worldedit" : String) == "classic_worldedit") = true := by decide
    have hmem : ∀ q, q ∈ consumedKeys "classic_worldedit" root ↔
        (q ∈ ["Width", "width", "Height", "height", "Length", "length",
          "Blocks", "Data", "TileEntities", "Entities"] ∧ hasKey root q = true) := by
      intro q
      simp only [consumedKeys, ha, hb, hcc, hB, Bool.false_eq_true, if_false, if_true,
        List.mem_append, List.mem_filter]
      constructor
      · rintro (h | h | h) <;>
          (rcases h with ⟨hm, hk⟩; refine ⟨?_, hk⟩; simp at hm ⊢; tauto)
      · rintro ⟨hm, hk⟩
        simp at hm
        rcases hm with h|h|h|h|h|h|h|h|h|h <;> subst h <;> simp [hk]
    have e2 : variantReadSet "classic_worldedit" = ["Blocks", "Data"] := by decide
    intro k
    rw [e2]
    exact mem_union_char root _ _ ["Blocks", "Data"] hmem (by decide) (by decide) k
  · -- litematica
    have ha : (("litematica" : String) == "litematica") = true := by decide
    have hb : strStarts "litematica" "modern_worldedit" = false := by decide
    have hcc : (("litematica" : String) == "classic_worldedit") = false := by decide
    have hmem : ∀ q, q ∈ consumedKeys "litematica" root ↔
        (q ∈ ["Regions"] ∧ hasKey root q = true) := by
      intro q
      simp only [consumedKeys, ha, hb, hcc, Bool.false_eq_true, if_false, if_true,
        List.mem_append, List.mem_filter, List.append_nil, List.not_mem_nil, or_false]
    have e2 : variantReadSet "litematica" = ["Regions"] := by decide
    intro k
    rw [e2]
    exact mem_union_char root _ _ ["Regions"] hmem (by decide) (by decide) k
  · -- unknown
    have ha : (("unknown" : String) == "litematica") = false := by decide
    have hb : strStarts "unknown" "modern_worldedit" = false := by decide
    have hcc : (("unknown" : String) == "classic_worldedit") = false := by decide
    have hmem : ∀ q, q ∈ consumedKeys "unknown" root ↔
        (q ∈ ["Width", "width", "Height", "height", "Length", "length"] ∧
          hasKey root q = true) := by
      intro q
      simp only [consumedKeys, ha, hb, hcc, Bool.false_eq_true, if_false, if_true,
        List.mem_append, List.mem_filter, List.append_nil, List.not_mem_nil, or_false]
    have e2 : variantReadSet "unknown" = [] := by decide
    intro k
    rw [e2]
    exact mem_union_char root _ _ [] hmem (by decide) (by decide) k

/-! ## C5 and C6 -/

/-- Sequencing after a step that did not raise. -/
theorem seqStep_none (a b : StepOut) (ha : a.2.2 = none) :
    seqStep a b = (a.1 ++ b.1, a.2.1 ++ b.2.1, b.2.2) := by
  obtain ⟨x, y, z⟩ := a
  simp only at ha
  subst ha
  rfl

/-- A record lookup skips a prefix whose keys all differ from the key. -/
theorem lookupR_append (l1 l2 : List (String × RVal)) (k : String)
    (h : ∀ q ∈ l1, q.1 ≠ k) : lookupR (l1 ++ l2) k = lookupR l2 k := by
  induction l1 with
  | nil => rfl
  | cons p t ih =>
      have hp : p.1 ≠ k := h p (by simp)
      obtain ⟨kp, vp⟩ := p
      simp only [List.cons_append, lookupR]
      rw [if_neg (by simpa using hp)]
      exact ih (fun q hq => h q (by simp [hq]))

/-- `Size` extraction on a tame compound region: no raise, and the produced
record piece is empty or a single `size` string. -/
theorem sizeP_tame (kvs : List (String × NBT))
    (h : optCompound (nbtGet kvs "Size") = true) :
    (sizeP (NBT.compound kvs)).2.2 = none ∧
    ((sizeP (NBT.compound kvs)).1 = [] ∨
      ∃ c, nbtGet kvs "Size" = some (NBT.compound c) ∧
        (sizeP (NBT.compound kvs)).1 = [("size", RVal.s (coordJoin c))]) := by
  cases hS : nbtGet kvs "Size" with
  | none => simp [sizeP, safe_check, hasKey, hS]
  | some v =>
      cases v with
      | compound c =>
          refine ⟨?_, Or.inr ⟨c, rfl, ?_⟩⟩ <;>
            simp [sizeP, safe_check, hasKey, hS, pyIndex]
      | list l => simp [optCompound, hS] at h
      | byteArray a => simp [optCompound, hS] at h
      | intArray a => simp [optCompound, hS] at h
      | string s => simp [optCompound, hS] at h
      | int n => simp [optCompound, hS] at h

/-- `Position` extraction on a tame compound region. -/
theorem posP_tame (kvs : List (String × NBT))
    (h : optCompound (nbtGet kvs "Position") = true) :
    (posP (NBT.compound kvs)).2.2 = none ∧
    ((posP (NBT.compound kvs)).1 = [] ∨
      ∃ c, nbtGet kvs "Position" = some (NBT.compound c) ∧
        (posP (NBT.compound kvs)).1 = [("position", RVal.s (coordJoin c))]) := by
  cases hS : nbtGet kvs "Position" with
  | none => simp [posP, safe_check, hasKey, hS]
  | some v =>
      cases v with
      | compound c =>
          refine ⟨?_, Or.inr ⟨c, rfl, ?_⟩⟩ <;>
            simp [posP, safe_check, hasKey, hS, pyIndex]
      | list l => simp [optCompound, hS] at h
      | byteArray a => simp [optCompound, hS] at h
      | intArray a => simp [optCompound, hS] at h
      | string s => simp [optCompound, hS] at h
      | int n => simp [optCompound, hS] at h

/-- List-count extraction on a tame compound region: no raise; the count key
appears exactly for a present non-empty list, holding the list's length. -/
theorem countP_tame (kvs : List (String × NBT)) (key outKey label : String)
    (h : optList (nbtGet kvs key) = true) :
    (countP (NBT.compound kvs) key outKey label).2.2 = none ∧
    (nbtGet kvs key = none → (countP (NBT.compound kvs) key outKey label).1 = []) ∧
    (∀ l, nbtGet kvs key = some (NBT.list l) →
      (countP (NBT.compound kvs) key outKey label).1 =
        (if l.isEmpty then [] else [(outKey, RVal.i l.length)])) := by
  cases hK : nbtGet kvs key with
  | none => simp [countP, safe_check, hasKey, hK]
  | some v =>
      cases v with
      | list l =>
          refine ⟨?_, by simp, ?_⟩
          · cases l with
            | nil => simp [countP, safe_check, hasKey, hK, pyIndex, pyTruthy]
            | cons a t => simp [countP, safe_check, hasKey, hK, pyIndex, pyTruthy, pyLenE]
          · intro m hm
            injection hm with hlm
            injection hlm with hl2
            subst hl2
            cases l with
            | nil => simp [countP, safe_check, hasKey, hK, pyIndex, pyTruthy]
            | cons a t => simp [countP, safe_check, hasKey, hK, pyIndex, pyTruthy, pyLenE]
      | compound c => simp [optList, hK] at h
      | byteArray a => simp [optList, hK] at h
      | intArray a => simp [optList, hK] at h
      | string s => simp [optList, hK] at h
      | int n => simp [optList, hK] at h

/-- On a tame region the four extraction parts all succeed and the record is
their concatenation. -/
theorem regionParts_tame (r : NBT) (h : tameRegion r = true) :
    (regionParts r).2.2 = none ∧
    (regionParts r).1 = (sizeP r).1 ++ (posP r).1 ++
      (countP r "BlockEntities" "block_entities_count" "Block Entities").1 ++
      (countP r "Entities" "entities_count" "Entities").1 := by
  cases r with
  | compound kvs =>
      have hh := h
      simp only [tameRegion, Bool.and_eq_true] at hh
      obtain ⟨⟨⟨h1, h2⟩, h3⟩, h4⟩ := hh
      have e1 := (sizeP_tame kvs h1).1
      have e2 := (posP_tame kvs h2).1
      have e3 := (countP_tame kvs "BlockEntities" "block_entities_count" "Block Entities" h3).1
      have e4 := (countP_tame kvs "Entities" "entities_count" "Entities" h4).1
      have s1 := seqStep_none (sizeP (NBT.compound kvs)) (posP (NBT.compound kvs)) e1
      have s1e : (seqStep (sizeP (NBT.compound kvs)) (posP (NBT.compound kvs))).2.2 = none := by
        rw [s1]
        exact e2
      have s2 := seqStep_none _
        (countP (NBT.compound kvs) "BlockEntities" "block_entities_count" "Block Entities") s1e
      have s2e : (seqStep (seqStep (sizeP (NBT.compound kvs)) (posP (NBT.compound kvs)))
          (countP (NBT.compound kvs) "BlockEntities" "block_entities_count" "Block Entities")).2.2 =
          none := by
        rw [s2]
        exact e3
      have s3 := seqStep_none _
        (countP (NBT.compound kvs) "Entities" "entities_count" "Entities") s2e
      constructor
      · show (regionParts (NBT.compound kvs)).2.2 = none
        unfold regionParts
        rw [s3]
        exact e4
      · show (regionParts (NBT.compound kvs)).1 = _
        unfold regionParts
        rw [s3, s2, s1]
  | list l => simp [tameRegion] at h
  | byteArray a => simp [tameRegion] at h
  | intArray a => simp [tameRegion] at h
  | string s => simp [tameRegion] at h
  | int n => simp [tameRegion] at h

/-- The region loop on an all-tame region list: no raise, one record per
region, in order, region names preserved. -/
theorem processRegions_tame (regs : List (String × NBT))
    (h : ∀ p ∈ regs, tameRegion p.2 = true) :
    (processRegions regs).2.2 = none ∧
    (processRegions regs).1 = regs.map (fun p => (p.1, RVal.obj (regionParts p.2).1)) := by
  induction regs with
  | nil => exact ⟨rfl, rfl⟩
  | cons p rest ih =>
      obtain ⟨n, r⟩ := p
      have hr : tameRegion r = true := h (n, r) (by simp)
      have hrest := ih (fun q hq => h q (by simp [hq]))
      have he := (regionParts_tame r hr).1
      constructor
      · simp only [processRegions, he]
        exact hrest.1
      · simp only [processRegions, he, List.map_cons]
        rw [hrest.2]

/-- C5 counterexample: a litematica region whose `Size` is an integral scalar
makes the extraction raise (`.get` on a non-dict), the analysis aborts, and
the region `"Main"` is dropped from the regions mapping. -/
theorem c5_cex :
    detectFormatC [("Regions", NBT.compound
      [("Main", NBT.compound [("Size", NBT.int 5)])])] = "litematica" ∧
    (regionsStep [("Regions", NBT.compound
      [("Main", NBT.compound [("Size", NBT.int 5)])])]).1 = [("regions", RVal.obj [])] ∧
    (regionsStep [("Regions", NBT.compound
      [("Main", NBT.compound [("Size", NBT.int 5)])])]).2.2 =
      some "AttributeError: no attribute get" := by
  exact ⟨by decide, rfl, rfl⟩

/-- C5 (amended): for every litematica input whose regions are compounds with
`Size`/`Position` absent-or-compound and `BlockEntities`/`Entities`
absent-or-list, the region extraction never raises and every region yields an
entry in the regions mapping, in order, with none dropped (a region missing
`Size` or `Position` still yields its partial record).  A region whose `Size`
is present as an integral scalar instead raises, aborting the analysis and
dropping that region and the following ones. -/
theorem c5_regions_total (root : List (String × NBT)) (regs : List (String × NBT))
    (_hfmt : detectFormatC root = "litematica")
    (hreg : nbtGet root "Regions" = some (NBT.compound regs))
    (htame : regs.all (fun p => tameRegion p.2) = true) :
    (regionsStep root).2.2 = none ∧
    (regionsStep root).1 = [("regions", RVal.obj
      (regs.map (fun p => (p.1, RVal.obj (regionParts p.2).1))))] := by
  have hall : ∀ p ∈ regs, tameRegion p.2 = true := by
    rw [List.all_eq_true] at htame
    exact fun p hp => htame p hp
  have hp := processRegions_tame regs hall
  constructor
  · simp only [regionsStep, hreg]
    exact hp.1
  · simp only [regionsStep, hreg]
    rw [hp.2]

/-- C5 witness: one region with only a `Position` still yields a (partial)
record and nothing raises. -/
theorem c5_regions_total_w :
    (regionsStep [("Regions", NBT.compound [("Main", NBT.compound
      [("Position", NBT.compound [("x", NBT.int 1)])])])]).2.2 = none ∧
    (regionsStep [("Regions", NBT.compound [("Main", NBT.compound
      [("Position", NBT.compound [("x", NBT.int 1)])])])]).1 =
      [("regions", RVal.obj [("Main", RVal.obj
        [("position", RVal.s ("1 x ? x ?"))])])] := by
  have h := c5_regions_total
    [("Regions", NBT.compound [("Main", NBT.compound
      [("Position", NBT.compound [("x", NBT.int 1)])])])]
    [("Main", NBT.compound [("Position", NBT.compound [("x", NBT.int 1)])])]
    (by decide) rfl rfl
  refine ⟨h.1, h.2.trans ?_⟩
  have hx : coordJoin [("x", NBT.int 1)] = "1 x ? x ?" := by decide
  simp [regionParts, seqStep, sizeP, posP, countP, safe_check, hasKey, nbtGet, pyIndex, hx]

/-- A record lookup on a list none of whose keys match is `none`. -/
theorem lookupR_none (l : List (String × RVal)) (k : String)
    (h : ∀ q ∈ l, q.1 ≠ k) : lookupR l k = none := by
  induction l with
  | nil => rfl
  | cons p t ih =>
      obtain ⟨kp, vp⟩ := p
      simp only [lookupR]
      rw [if_neg (by simpa using h (kp, vp) (by simp))]
      exact ih (fun q hq => h q (by simp [hq]))

/-- Every key a region count part records is its output key, whatever the
region value. -/
theorem countP_keys (r : NBT) (key outKey label : String) :
    ∀ q ∈ (countP r key outKey label).1, q.1 = outKey := by
  intro q hq
  cases hsc : safe_check r key with
  | false => simp [countP, hsc] at hq
  | true =>
      cases hP : pyIndex r key with
      | error e => simp [countP, hsc, hP] at hq
      | ok v =>
          cases hT : pyTruthy v with
          | error e => simp [countP, hsc, hP, hT] at hq
          | ok b =>
              cases b with
              | false => simp [countP, hsc, hP, hT] at hq
              | true =>
                  cases hL : pyLenE v with
                  | error e => simp [countP, hsc, hP, hT, hL] at hq
                  | ok n =>
                      simp [countP, hsc, hP, hT, hL] at hq
                      rw [hq]

/-- Count extraction on a region whose field is absent or of a sized kind
(list, compound or string): no raise; the count key appears exactly for a
present truthy value, and then holds that value's length. -/
theorem countP_tame2 (kvs : List (String × NBT)) (key outKey label : String)
    (h : sizedOk (nbtGet kvs key) = true) :
    (countP (NBT.compound kvs) key outKey label).2.2 = none ∧
    (nbtGet kvs key = none → (countP (NBT.compound kvs) key outKey label).1 = []) ∧
    (∀ v, nbtGet kvs key = some v → pyTruthy v = Except.ok false →
      (countP (NBT.compound kvs) key outKey label).1 = []) ∧
    (∀ v n, nbtGet kvs key = some v → pyTruthy v = Except.ok true →
      pyLenE v = Except.ok n →
      (countP (NBT.compound kvs) key outKey label).1 = [(outKey, RVal.i n)]) := by
  refine ⟨?_, ?_, ?_, ?_⟩
  · cases hK : nbtGet kvs key with
    | none => simp [countP, safe_check, hasKey, hK]
    | some v =>
        cases v with
        | list l =>
            cases hb : l.isEmpty <;>
              simp [countP, safe_check, hasKey, hK, pyIndex, pyTruthy, pyLenE, hb]
        | compound c =>
            cases hb : c.isEmpty <;>
              simp [countP, safe_check, hasKey, hK, pyIndex, pyTruthy, pyLenE, hb]
        | string s =>
            cases hb : (s != "") <;>
              simp [countP, safe_check, hasKey, hK, pyIndex, pyTruthy, pyLenE, hb]
        | byteArray a => simp [sizedOk, hK] at h
        | intArray a => simp [sizedOk, hK] at h
        | int n => simp [sizedOk, hK] at h
  · intro hK
    simp [countP, safe_check, hasKey, hK]
  · intro v hK ht
    simp [countP, safe_check, hasKey, hK, pyIndex, ht]
  · intro v n hK ht hn
    simp [countP, safe_check, hasKey, hK, pyIndex, ht, hn]

/-- On a region tame in the wider (sized-kind) sense the four extraction
parts all succeed and the record is their concatenation. -/
theorem regionParts_tame2 (r : NBT) (h : tameRegion2 r = true) :
    (regionParts r).2.2 = none ∧
    (regionParts r).1 = (sizeP r).1 ++ (posP r).1 ++
      (countP r "BlockEntities" "block_entities_count" "Block Entities").1 ++
      (countP r "Entities" "entities_count" "Entities").1 := by
  cases r with
  | compound kvs =>
      have hh := h
      simp only [tameRegion2, Bool.and_eq_true] at hh
      obtain ⟨⟨⟨h1, h2⟩, h3⟩, h4⟩ := hh
      have e1 := (sizeP_tame kvs h1).1
      have e2 := (posP_tame kvs h2).1
      have e3 := (countP_tame2 kvs "BlockEntities" "block_entities_count" "Block Entities" h3).1
      have e4 := (countP_tame2 kvs "Entities" "entities_count" "Entities" h4).1
      have s1 := seqStep_none (sizeP (NBT.compound kvs)) (posP (NBT.compound kvs)) e1
      have s1e : (seqStep (sizeP (NBT.compound kvs)) (posP (NBT.compound kvs))).2.2 = none := by
        rw [s1]
        exact e2
      have s2 := seqStep_none _
        (countP (NBT.compound kvs) "BlockEntities" "block_entities_count" "Block Entities") s1e
      have s2e : (seqStep (seqStep (sizeP (NBT.compound kvs)) (posP (NBT.compound kvs)))
          (countP (NBT.compound kvs) "BlockEntities" "block_entities_count" "Block Entities")).2.2 =
          none := by
        rw [s2]
        exact e3
      have s3 := seqStep_none _
        (countP (NBT.compound kvs) "Entities" "entities_count" "Entities") s2e
      constructor
      · show (regionParts (NBT.compound kvs)).2.2 = none
        unfold regionParts
        rw [s3]
        exact e4
      · show (regionParts (NBT.compound kvs)).1 = _
        unfold regionParts
        rw [s3, s2, s1]
  | list l => simp [tameRegion2] at h
  | byteArray a => simp [tameRegion2] at h
  | intArray a => simp [tameRegion2] at h
  | string s => simp [tameRegion2] at h
  | int n => simp [tameRegion2] at h

/-- C6 counterexample: a region whose `BlockEntities` is a non-empty compound
— not a list at all — still gets `block_entities_count = 1` recorded without
raising, because the source only checks presence, truthiness and `len`. -/
theorem c6_cex :
    (regionParts (NBT.compound
      [("BlockEntities", NBT.compound [("a", NBT.int 1)])])).2.2 = none ∧
    lookupR (regionParts (NBT.compound
      [("BlockEntities", NBT.compound [("a", NBT.int 1)])])).1 "block_entities_count" =
      some (RVal.i 1) ∧
    isListB (NBT.compound [("a", NBT.int 1)]) = false := by
  exact ⟨rfl, rfl, rfl⟩

/-- C6 (amended): in a litematica region whose `Size`/`Position` are
absent-or-compound and whose `BlockEntities`/`Entities` are absent or of a
sized kind (list, compound or string), the `block_entities_count`
(resp. `entities_count`) key is present in the region's result record exactly
when the corresponding value exists and is truthy — not only when it is a
non-empty list — and then holds that value's `len`; an absent or falsy
(e.g. empty-list) value leaves the count key out entirely, never recorded
as 0. -/
theorem c6_entity_counts (kvs : List (String × NBT))
    (h : tameRegion2 (NBT.compound kvs) = true) :
    (∀ v n, nbtGet kvs "BlockEntities" = some v → pyTruthy v = Except.ok true →
      pyLenE v = Except.ok n →
      lookupR (regionParts (NBT.compound kvs)).1 "block_entities_count" =
        some (RVal.i n)) ∧
    (∀ v, nbtGet kvs "BlockEntities" = some v → pyTruthy v = Except.ok false →
      lookupR (regionParts (NBT.compound kvs)).1 "block_entities_count" = none) ∧
    (nbtGet kvs "BlockEntities" = none →
      lookupR (regionParts (NBT.compound kvs)).1 "block_entities_count" = none) ∧
    (∀ v n, nbtGet kvs "Entities" = some v → pyTruthy v = Except.ok true →
      pyLenE v = Except.ok n →
      lookupR (regionParts (NBT.compound kvs)).1 "entities_count" =
        some (RVal.i n)) ∧
    (∀ v, nbtGet kvs "Entities" = some v → pyTruthy v = Except.ok false →
      lookupR (regionParts (NBT.compound kvs)).1 "entities_count" = none) ∧
    (nbtGet kvs "Entities" = none →
      lookupR (regionParts (NBT.compound kvs)).1 "entities_count" = none) := by
  have hh := h
  simp only [tameRegion2, Bool.and_eq_true] at hh
  obtain ⟨⟨⟨h1, h2⟩, h3⟩, h4⟩ := hh
  have hdec := (regionParts_tame2 (NBT.compound kvs) h).2
  have hs := sizeP_tame kvs h1
  have hpp := posP_tame kvs h2
  have hbe := countP_tame2 kvs "BlockEntities" "block_entities_count" "Block Entities" h3
  have hen := countP_tame2 kvs "Entities" "entities_count" "Entities" h4
  have hspKeys : ∀ k, k ≠ "size" → k ≠ "position" →
      ∀ q ∈ (sizeP (NBT.compound kvs)).1 ++ (posP (NBT.compound kvs)).1, q.1 ≠ k := by
    intro k hk1 hk2 q hq
    rcases List.mem_append.mp hq with hq | hq
    · rcases hs.2 with he | ⟨c, _, he⟩
      · rw [he] at hq
        simp at hq
      · rw [he] at hq
        simp at hq
        rw [hq]
        exact fun hc => hk1 hc.symm
    · rcases hpp.2 with he | ⟨c, _, he⟩
      · rw [he] at hq
        simp at hq
      · rw [he] at hq
        simp at hq
        rw [hq]
        exact fun hc => hk2 hc.symm
  have hbekeys : ∀ q ∈ (countP (NBT.compound kvs) "BlockEntities"
      "block_entities_count" "Block Entities").1, q.1 ≠ "entities_count" := by
    intro q hq
    rw [countP_keys (NBT.compound kvs) "BlockEntities" "block_entities_count"
      "Block Entities" q hq]
    decide
  have hentNone : lookupR (countP (NBT.compound kvs) "Entities"
      "entities_count" "Entities").1 "block_entities_count" = none := by
    refine lookupR_none _ _ ?_
    intro q hq
    rw [countP_keys (NBT.compound kvs) "Entities" "entities_count" "Entities" q hq]
    decide
  refine ⟨?_, ?_, ?_, ?_, ?_, ?_⟩
  · intro v n hK ht hn
    rw [hdec, List.append_assoc,
      lookupR_append _ _ _ (hspKeys "block_entities_count" (by decide) (by decide)),
      hbe.2.2.2 v n hK ht hn]
    simp [lookupR]
  · intro v hK ht
    rw [hdec, List.append_assoc,
      lookupR_append _ _ _ (hspKeys "block_entities_count" (by decide) (by decide)),
      lookupR_append _ _ _ (by
        intro q hq
        rw [hbe.2.2.1 v hK ht] at hq
        simp at hq)]
    exact hentNone
  · intro hK
    rw [hdec, List.append_assoc,
      lookupR_append _ _ _ (hspKeys "block_entities_count" (by decide) (by decide)),
      lookupR_append _ _ _ (by
        intro q hq
        rw [hbe.2.1 hK] at hq
        simp at hq)]
    exact hentNone
  · intro v n hK ht hn
    rw [hdec, List.append_assoc,
      lookupR_append _ _ _ (hspKeys "entities_count" (by decide) (by decide)),
      lookupR_append _ _ _ hbekeys, hen.2.2.2 v n hK ht hn]
    simp [lookupR]
  · intro v hK ht
    rw [hdec, List.append_assoc,
      lookupR_append _ _ _ (hspKeys "entities_count" (by decide) (by decide)),
      lookupR_append _ _ _ hbekeys, hen.2.2.1 v hK ht]
    rfl
  · intro hK
    rw [hdec, List.append_assoc,
      lookupR_append _ _ _ (hspKeys "entities_count" (by decide) (by decide)),
      lookupR_append _ _ _ hbekeys, hen.2.1 hK]
    rfl

/-- C6 witness: the spec's scenario B region — `Size={x:4,y:4,z:4}`, no
`BlockEntities` key — yields size `"4 x 4 x 4"` and no `block_entities_count`
key, while a region with a two-entry `Entities` list gets
`entities_count = 2`. -/
theorem c6_entity_counts_w :
    lookupR (regionParts (NBT.compound
      [("Size", NBT.compound [("x", NBT.int 4), ("y", NBT.int 4), ("z", NBT.int 4)])])).1
      "block_entities_count" = none ∧
    lookupR (regionParts (NBT.compound
      [("Size", NBT.compound [("x", NBT.int 4), ("y", NBT.int 4), ("z", NBT.int 4)])])).1
      "size" = some (RVal.s "4 x 4 x 4") ∧
    lookupR (regionParts (NBT.compound
      [("Entities", NBT.list [NBT.int 1, NBT.int 2])])).1
      "entities_count" = some (RVal.i 2) := by
  refine ⟨(c6_entity_counts
    [("Size", NBT.compound [("x", NBT.int 4), ("y", NBT.int 4), ("z", NBT.int 4)])]
    rfl).2.2.1 rfl, ?_,
    (c6_entity_counts [("Entities", NBT.list [NBT.int 1, NBT.int 2])]
      rfl).2.2.2.1 (NBT.list [NBT.int 1, NBT.int 2]) 2 rfl rfl rfl⟩
  have hx : coordJoin [("x", NBT.int 4), ("y", NBT.int 4), ("z", NBT.int 4)] =
      "4 x 4 x 4" := by decide
  simp [regionParts, seqStep, sizeP, posP, countP, safe_check, hasKey, nbtGet,
    pyIndex, lookupR, hx]

/-! ## C7 -/

/-- Every key an optional-length part records is its output key. -/
theorem optLenPart_keys (root : List (String × NBT)) (key outKey label sfx : String) :
    ∀ q ∈ (optLenPart root key outKey label sfx).1, q.1 = outKey := by
  intro q hq
  cases hK : nbtGet root key with
  | none => simp [optLenPart, hK] at hq
  | some d =>
      cases hL : pyLenOpt d with
      | none => simp [optLenPart, hK, hL] at hq
      | some n =>
          simp [optLenPart, hK, hL] at hq
          rw [hq]

/-- Detecting `classic_worldedit` means both `Blocks` and `Data` are present
at the root. -/
theorem detect_classic_present (root : List (String × NBT))
    (h : detectFormatC root = "classic_worldedit") :
    hasKey root "Blocks" = true ∧ hasKey root "Data" = true := by
  unfold detectFormatC at h
  split_ifs at h with h1 h2 h3 h4 h5
  · exact absurd h (by decide)
  · exact absurd h (by decide)
  · exact absurd h (by decide)
  · exact Bool.and_eq_true_iff.mp h4
  · exact absurd h (by decide)
  · exact absurd h (by decide)

/-- C7: for every `classic_worldedit` input the block-statistics extractor
never raises; the total block count comes from the array shape (total element
count) when the `Blocks` value has one, else from `len` when supported, else
the string `"unknown"`; and each of the `Data` / `TileEntities` / `Entities`
lengths is recorded independently, exactly when the key is present with a
value supporting `len`. -/
theorem c7_classic_stats (root : List (String × NBT)) (b : NBT)
    (_hfmt : detectFormatC root = "classic_worldedit")
    (hb : nbtGet root "Blocks" = some b) :
    (blockStatsStep "classic_worldedit" root).2.2 = none ∧
    lookupR (blockStatsStep "classic_worldedit" root).1 "block_stats" =
      some (RVal.obj [("total_blocks", classicTotal b)]) ∧
    (hasShapeB b = true → classicTotal b = RVal.i (shapeSize b)) ∧
    (∀ n, hasShapeB b = false → pyLenOpt b = some n → classicTotal b = RVal.i n) ∧
    (hasShapeB b = false → pyLenOpt b = none → classicTotal b = RVal.s "unknown") ∧
    (∀ d n, nbtGet root "Data" = some d → pyLenOpt d = some n →
      lookupR (blockStatsStep "classic_worldedit" root).1 "block_data_size" =
        some (RVal.i n)) ∧
    (nbtGet root "Data" = none →
      lookupR (blockStatsStep "classic_worldedit" root).1 "block_data_size" = none) ∧
    (∀ d, nbtGet root "Data" = some d → pyLenOpt d = none →
      lookupR (blockStatsStep "classic_worldedit" root).1 "block_data_size" = none) ∧
    (∀ d n, nbtGet root "TileEntities" = some d → pyLenOpt d = some n →
      lookupR (blockStatsStep "classic_worldedit" root).1 "tile_entities_count" =
        some (RVal.i n)) ∧
    (nbtGet root "TileEntities" = none →
      lookupR (blockStatsStep "classic_worldedit" root).1 "tile_entities_count" = none) ∧
    (∀ d, nbtGet root "TileEntities" = some d → pyLenOpt d = none →
      lookupR (blockStatsStep "classic_worldedit" root).1 "tile_entities_count" = none) ∧
    (∀ d n, nbtGet root "Entities" = some d → pyLenOpt d = some n →
      lookupR (blockStatsStep "classic_worldedit" root).1 "entities_count" =
        some (RVal.i n)) ∧
    (nbtGet root "Entities" = none →
      lookupR (blockStatsStep "classic_worldedit" root).1 "entities_count" = none) ∧
    (∀ d, nbtGet root "Entities" = some d → pyLenOpt d = none →
      lookupR (blockStatsStep "classic_worldedit" root).1 "entities_count" = none) := by
  have hstep : blockStatsStep "classic_worldedit" root = classicStats root := by
    have hm : strStarts "classic_worldedit" "modern_worldedit" = false := by decide
    have hc : (("classic_worldedit" : String) == "classic_worldedit") = true := by decide
    simp [blockStatsStep, hm, hc]
  have hadds : (classicStats root).1 =
      [("block_stats", RVal.obj [("total_blocks", classicTotal b)])] ++
      (optLenPart root "Data" "block_data_size" "Block data size" " bytes").1 ++
      (optLenPart root "TileEntities" "tile_entities_count" "Tile entities" "").1 ++
      (optLenPart root "Entities" "entities_count" "Entities" "").1 := by
    simp [classicStats, hb]
  have hbsne : (("block_stats" : String) == "block_data_size") = false := by decide
  refine ⟨?_, ?_, ?_, ?_, ?_, ?_, ?_, ?_, ?_, ?_, ?_, ?_, ?_, ?_⟩
  · rw [hstep]
    simp [classicStats, hb]
  · rw [hstep, hadds]
    simp [lookupR]
  · intro hsh
    cases b <;> simp_all [hasShapeB, shapeSize, classicTotal]
  · intro n hsh hlen
    cases b <;> simp_all [hasShapeB, pyLenOpt, pyLenE, classicTotal, Except.toOption]
  · intro hsh hlen
    cases b <;> simp_all [hasShapeB, pyLenOpt, pyLenE, classicTotal, Except.toOption]
  · intro d n hd hn
    rw [hstep, hadds]
    have he : (optLenPart root "Data" "block_data_size" "Block data size" " bytes").1 =
        [("block_data_size", RVal.i n)] := by
      simp [optLenPart, hd, hn]
    rw [he]
    simp [lookupR]
  · intro hd
    rw [hstep, hadds]
    have he : (optLenPart root "Data" "block_data_size" "Block data size" " bytes").1 = [] := by
      simp [optLenPart, hd]
    rw [he]
    refine lookupR_none _ _ ?_
    intro q hq
    simp only [List.append_nil, List.mem_append, List.mem_singleton] at hq
    rcases hq with (hq | hq) | hq
    · rw [hq]
      show ("block_stats" : String) ≠ "block_data_size"
      decide
    · rw [optLenPart_keys root "TileEntities" "tile_entities_count" "Tile entities" "" q hq]
      decide
    · rw [optLenPart_keys root "Entities" "entities_count" "Entities" "" q hq]
      decide
  · intro d hd hn
    rw [hstep, hadds]
    have he : (optLenPart root "Data" "block_data_size" "Block data size" " bytes").1 = [] := by
      simp [optLenPart, hd, hn]
    rw [he]
    refine lookupR_none _ _ ?_
    intro q hq
    simp only [List.append_nil, List.mem_append, List.mem_singleton] at hq
    rcases hq with (hq | hq) | hq
    · rw [hq]
      show ("block_stats" : String) ≠ "block_data_size"
      decide
    · rw [optLenPart_keys root "TileEntities" "tile_entities_count" "Tile entities" "" q hq]
      decide
    · rw [optLenPart_keys root "Entities" "entities_count" "Entities" "" q hq]
      decide
  · intro d n hd hn
    rw [hstep, hadds]
    have he : (optLenPart root "TileEntities" "tile_entities_count" "Tile entities" "").1 =
        [("tile_entities_count", RVal.i n)] := by
      simp [optLenPart, hd, hn]
    rw [he]
    rw [List.append_assoc, List.append_assoc]
    rw [lookupR_append _ _ _ ?pre]
    case pre =>
      intro q hq
      rw [List.mem_singleton.mp hq]
      show ("block_stats" : String) ≠ "tile_entities_count"
      decide
    rw [lookupR_append _ _ _ ?pre2]
    case pre2 =>
      intro q hq
      rw [optLenPart_keys root "Data" "block_data_size" "Block data size" " bytes" q hq]
      decide
    simp [lookupR]
  · intro hd
    rw [hstep, hadds]
    have he : (optLenPart root "TileEntities" "tile_entities_count" "Tile entities" "").1 =
        [] := by
      simp [optLenPart, hd]
    rw [he]
    refine lookupR_none _ _ ?_
    intro q hq
    simp only [List.append_nil, List.mem_append, List.mem_singleton] at hq
    rcases hq with (hq | hq) | hq
    · rw [hq]
      show ("block_stats" : String) ≠ "tile_entities_count"
      decide
    · rw [optLenPart_keys root "Data" "block_data_size" "Block data size" " bytes" q hq]
      decide
    · rw [optLenPart_keys root "Entities" "entities_count" "Entities" "" q hq]
      decide
  · intro d hd hn
    rw [hstep, hadds]
    have he : (optLenPart root "TileEntities" "tile_entities_count" "Tile entities" "").1 =
        [] := by
      simp [optLenPart, hd, hn]
    rw [he]
    refine lookupR_none _ _ ?_
    intro q hq
    simp only [List.append_nil, List.mem_append, List.mem_singleton] at hq
    rcases hq with (hq | hq) | hq
    · rw [hq]
      show ("block_stats" : String) ≠ "tile_entities_count"
      decide
    · rw [optLenPart_keys root "Data" "block_data_size" "Block data size" " bytes" q hq]
      decide
    · rw [optLenPart_keys root "Entities" "entities_count" "Entities" "" q hq]
      decide
  · intro d n hd hn
    rw [hstep, hadds]
    have he : (optLenPart root "Entities" "entities_count" "Entities" "").1 =
        [("entities_count", RVal.i n)] := by
      simp [optLenPart, hd, hn]
    rw [he]
    rw [List.append_assoc, List.append_assoc]
    rw [lookupR_append _ _ _ ?epre]
    case epre =>
      intro q hq
      rw [List.mem_singleton.mp hq]
      show ("block_stats" : String) ≠ "entities_count"
      decide
    rw [lookupR_append _ _ _ ?epre2]
    case epre2 =>
      intro q hq
      rw [optLenPart_keys root "Data" "block_data_size" "Block data size" " bytes" q hq]
      decide
    rw [lookupR_append _ _ _ ?epre3]
    case epre3 =>
      intro q hq
      rw [optLenPart_keys root "TileEntities" "tile_entities_count" "Tile entities" "" q hq]
      decide
    simp [lookupR]
  · intro hd
    rw [hstep, hadds]
    have he : (optLenPart root "Entities" "entities_count" "Entities" "").1 = [] := by
      simp [optLenPart, hd]
    rw [he]
    refine lookupR_none _ _ ?_
    intro q hq
    simp only [List.append_nil, List.mem_append, List.mem_singleton] at hq
    rcases hq with (hq | hq) | hq
    · rw [hq]
      show ("block_stats" : String) ≠ "entities_count"
      decide
    · rw [optLenPart_keys root "Data" "block_data_size" "Block data size" " bytes" q hq]
      decide
    · rw [optLenPart_keys root "TileEntities" "tile_entities_count" "Tile entities" "" q hq]
      decide
  · intro d hd hn
    rw [hstep, hadds]
    have he : (optLenPart root "Entities" "entities_count" "Entities" "").1 = [] := by
      simp [optLenPart, hd, hn]
    rw [he]
    refine lookupR_none _ _ ?_
    intro q hq
    simp only [List.append_nil, List.mem_append, List.mem_singleton] at hq
    rcases hq with (hq | hq) | hq
    · rw [hq]
      show ("block_stats" : String) ≠ "entities_count"
      decide
    · rw [optLenPart_keys root "Data" "block_data_size" "Block data size" " bytes" q hq]
      decide
    · rw [optLenPart_keys root "TileEntities" "tile_entities_count" "Tile entities" "" q hq]
      decide

/-- C7 witness: a classic file with a 3-byte `Blocks` array, a 3-byte `Data`
array, an empty `TileEntities` list (length 0 is still recorded) and no
`Entities` key. -/
theorem c7_classic_stats_w :
    (blockStatsStep "classic_worldedit"
      [("Blocks", NBT.byteArray [1, 2, 3]), ("Data", NBT.byteArray [0, 0, 0]),
       ("TileEntities", NBT.list [])]).2.2 = none ∧
    lookupR (blockStatsStep "classic_worldedit"
      [("Blocks", NBT.byteArray [1, 2, 3]), ("Data", NBT.byteArray [0, 0, 0]),
       ("TileEntities", NBT.list [])]).1 "block_stats" =
      some (RVal.obj [("total_blocks", RVal.i 3)]) ∧
    lookupR (blockStatsStep "classic_worldedit"
      [("Blocks", NBT.byteArray [1, 2, 3]), ("Data", NBT.byteArray [0, 0, 0]),
       ("TileEntities", NBT.list [])]).1 "block_data_size" = some (RVal.i 3) ∧
    lookupR (blockStatsStep "classic_worldedit"
      [("Blocks", NBT.byteArray [1, 2, 3]), ("Data", NBT.byteArray [0, 0, 0]),
       ("TileEntities", NBT.list [])]).1 "tile_entities_count" = some (RVal.i 0) ∧
    lookupR (blockStatsStep "classic_worldedit"
      [("Blocks", NBT.byteArray [1, 2, 3]), ("Data", NBT.byteArray [0, 0, 0]),
       ("TileEntities", NBT.list [])]).1 "entities_count" = none := by
  have h := c7_classic_stats
    [("Blocks", NBT.byteArray [1, 2, 3]), ("Data", NBT.byteArray [0, 0, 0]),
     ("TileEntities", NBT.list [])] (NBT.byteArray [1, 2, 3]) (by decide) rfl
  exact ⟨h.1, h.2.1, h.2.2.2.2.2.1 (NBT.byteArray [0, 0, 0]) 3 rfl rfl,
    h.2.2.2.2.2.2.2.2.1 (NBT.list []) 0 rfl rfl,
    h.2.2.2.2.2.2.2.2.2.2.2.2.1 rfl⟩

/-! ## C8 -/

/-- C8: when the tree decode fails (non-gzipped bytes that are not a valid
tree, or a gzipped stream whose decompressed bytes are not a valid tree), the
result keeps exactly the file-identity and compression fields recorded before
the failure plus the error field, the `format` key is absent, a decode-error
line is emitted, and no further extraction happens (the result holds nothing
else). -/
theorem c8_decode_error (nm pth tm : String) (sz : Int) (raw d : List Nat)
    (gunzip : List Nat → Except String (List Nat))
    (parse : List Nat → Except String (Bool × List (String × NBT)))
    (e : String) (hlen : 2 ≤ raw.length) :
    (isGzMagic raw = false → parse raw = Except.error e →
      analyze_schematic nm pth sz tm raw gunzip parse =
        ([("file_name", RVal.s nm), ("file_path", RVal.s pth), ("file_size", RVal.i sz),
          ("analysis_time", RVal.s tm), ("compression", RVal.s "not gzipped"),
          ("error", RVal.s ("Error parsing NBT data: " ++ e))],
         [s!"\n=== Analyzing file: {nm} ===", s!"File path: {pth}",
          s!"File size: {sz} bytes", "File compression: not gzipped",
          "Error parsing NBT data: " ++ e]) ∧
      "format" ∉ (analyze_schematic nm pth sz tm raw gunzip parse).1.map Prod.fst ∧
      ("Error parsing NBT data: " ++ e) ∈ (analyze_schematic nm pth sz tm raw gunzip parse).2 ∧
      lookupR (analyze_schematic nm pth sz tm raw gunzip parse).1 "file_name" =
        some (RVal.s nm) ∧
      lookupR (analyze_schematic nm pth sz tm raw gunzip parse).1 "compression" =
        some (RVal.s "not gzipped")) ∧
    (isGzMagic raw = true → gunzip raw = Except.ok d → parse d = Except.error e →
      analyze_schematic nm pth sz tm raw gunzip parse =
        ([("file_name", RVal.s nm), ("file_path", RVal.s pth), ("file_size", RVal.i sz),
          ("analysis_time", RVal.s tm), ("compression", RVal.s "gzipped"),
          ("decompressed_size", RVal.i d.length),
          ("error", RVal.s ("Error parsing NBT data: " ++ e))],
         [s!"\n=== Analyzing file: {nm} ===", s!"File path: {pth}",
          s!"File size: {sz} bytes", "File compression: gzipped",
          s!"Decompressed size: {d.length} bytes",
          "Error parsing NBT data: " ++ e]) ∧
      "format" ∉ (analyze_schematic nm pth sz tm raw gunzip parse).1.map Prod.fst) := by
  have h0 : ¬(raw.length = 0) := by omega
  have h1n : ¬(raw.length = 1) := by omega
  constructor
  · intro hmag hparse
    have hmain : analyze_schematic nm pth sz tm raw gunzip parse =
        ([("file_name", RVal.s nm), ("file_path", RVal.s pth), ("file_size", RVal.i sz),
          ("analysis_time", RVal.s tm), ("compression", RVal.s "not gzipped"),
          ("error", RVal.s ("Error parsing NBT data: " ++ e))],
         [s!"\n=== Analyzing file: {nm} ===", s!"File path: {pth}",
          s!"File size: {sz} bytes", "File compression: not gzipped",
          "Error parsing NBT data: " ++ e]) := by
      simp [analyze_schematic, h0, h1n, hmag, hparse]
      decide
    refine ⟨hmain, ?_, ?_, ?_, ?_⟩
    · rw [hmain]
      simp
    · rw [hmain]
      simp
    · rw [hmain]
      simp [lookupR]
    · rw [hmain]
      simp [lookupR]
  · intro hmag hgz hparse
    have hmain : analyze_schematic nm pth sz tm raw gunzip parse =
        ([("file_name", RVal.s nm), ("file_path", RVal.s pth), ("file_size", RVal.i sz),
          ("analysis_time", RVal.s tm), ("compression", RVal.s "gzipped"),
          ("decompressed_size", RVal.i d.length),
          ("error", RVal.s ("Error parsing NBT data: " ++ e))],
         [s!"\n=== Analyzing file: {nm} ===", s!"File path: {pth}",
          s!"File size: {sz} bytes", "File compression: gzipped",
          s!"Decompressed size: {d.length} bytes",
          "Error parsing NBT data: " ++ e]) := by
      simp [analyze_schematic, h0, h1n, hmag, hgz, hparse]
      decide
    refine ⟨hmain, ?_⟩
    rw [hmain]
    simp

/-- C8 witness: a two-byte non-gzip file whose bytes the decoder rejects. -/
theorem c8_decode_error_w :
    analyze_schematic "f.schem" "/p/f.schem" 2 "t" [0, 0]
      (fun _ => Except.error "nope") (fun _ => Except.error "bad tree") =
      ([("file_name", RVal.s "f.schem"), ("file_path", RVal.s "/p/f.schem"),
        ("file_size", RVal.i 2), ("analysis_time", RVal.s "t"),
        ("compression", RVal.s "not gzipped"),
        ("error", RVal.s "Error parsing NBT data: bad tree")],
       ["\n=== Analyzing file: f.schem ===", "File path: /p/f.schem",
        "File size: 2 bytes", "File compression: not gzipped",
        "Error parsing NBT data: bad tree"]) ∧
    "format" ∉ (analyze_schematic "f.schem" "/p/f.schem" 2 "t" [0, 0]
      (fun _ => Except.error "nope") (fun _ => Except.error "bad tree")).1.map Prod.fst := by
  have h := (c8_decode_error "f.schem" "/p/f.schem" "t" 2 [0, 0] []
    (fun _ => Except.error "nope") (fun _ => Except.error "bad tree") "bad tree"
    (by decide)).1 rfl rfl
  exact ⟨h.1.trans (by rfl), h.2.1⟩

/-! ## C10 -/

/-- Dimension extraction on integral effective dimensions: no raise and only
the `dimensions` key. -/
theorem dimsStep_tame (root : List (String × NBT)) (hdi : dimsInt root = true) :
    (dimsStep root).2.2 = none ∧
    ∀ k ∈ (dimsStep root).1.map Prod.fst, k = "dimensions" := by
  have hdi3 := hdi
  simp only [dimsInt, Bool.and_eq_true] at hdi3
  obtain ⟨⟨hw0, hh0⟩, hl0⟩ := hdi3
  obtain ⟨w, hw⟩ : ∃ w, dimLookup root "Width" "width" = NBT.int w := by
    cases hv : dimLookup root "Width" "width" <;> rw [hv] at hw0 <;>
      simp [isIntB] at hw0
    exact ⟨_, rfl⟩
  obtain ⟨h2, hh⟩ : ∃ h2, dimLookup root "Height" "height" = NBT.int h2 := by
    cases hv : dimLookup root "Height" "height" <;> rw [hv] at hh0 <;>
      simp [isIntB] at hh0
    exact ⟨_, rfl⟩
  obtain ⟨l2, hl⟩ : ∃ l2, dimLookup root "Length" "length" = NBT.int l2 := by
    cases hv : dimLookup root "Length" "length" <;> rw [hv] at hl0 <;>
      simp [isIntB] at hl0
    exact ⟨_, rfl⟩
  have hcase : ∀ (P : StepOut → Prop),
      (∀ v : Int,
        P ([("dimensions", RVal.obj
          [("width", RVal.tag (NBT.int w)), ("height", RVal.tag (NBT.int h2)),
           ("length", RVal.tag (NBT.int l2)), ("total_volume", RVal.i v)])],
          [s!"Dimensions: {pyStr (NBT.int w)} x {pyStr (NBT.int h2)} x {pyStr (NBT.int l2)}",
           s!"Total volume: {v} blocks"], none)) →
      P (dimsStep root) := by
    intro P hP
    unfold dimsStep
    rw [hw, hh, hl]
    simp only [andTruthy3, pyTruthy, pyMul3]
    by_cases hwz : w = 0
    · have hbw : (w != 0) = false := by simp [hwz]
      simp only [hbw]
      exact hP 0
    · have hbw : (w != 0) = true := by simp [hwz]
      by_cases hhz : h2 = 0
      · have hbh : (h2 != 0) = false := by simp [hhz]
        simp only [hbw, hbh]
        exact hP 0
      · have hbh : (h2 != 0) = true := by simp [hhz]
        by_cases hlz : l2 = 0
        · have hbl : (l2 != 0) = false := by simp [hlz]
          simp only [hbw, hbh, hbl]
          exact hP 0
        · have hbl : (l2 != 0) = true := by simp [hlz]
          simp only [hbw, hbh, hbl]
          exact hP (w * h2 * l2)
  constructor
  · exact hcase (fun st => st.2.2 = none) (fun v => rfl)
  · exact hcase (fun st => ∀ k ∈ st.1.map Prod.fst, k = "dimensions")
      (fun v => by simp)

/-- Region extraction on a tame `Regions` value: no raise and only the
`regions` key. -/
theorem regionsStep_tame (root : List (String × NBT)) (h : regionsOk root = true) :
    (regionsStep root).2.2 = none ∧
    ∀ k ∈ (regionsStep root).1.map Prod.fst, k = "regions" := by
  unfold regionsOk at h
  cases hR : nbtGet root "Regions" with
  | none => rw [hR] at h; exact absurd h (by simp)
  | some v =>
      rw [hR] at h
      cases v with
      | compound regs =>
          have hall : ∀ p ∈ regs, tameRegion p.2 = true := by
            rw [List.all_eq_true] at h
            exact fun p hp => h p hp
          have hp := processRegions_tame regs hall
          constructor
          · simp only [regionsStep, hR]
            exact hp.1
          · simp only [regionsStep, hR]
            simp
      | list l => exact absurd h (by simp)
      | byteArray a => exact absurd h (by simp)
      | intArray a => exact absurd h (by simp)
      | string s => exact absurd h (by simp)
      | int n => exact absurd h (by simp)

/-- Block statistics never raise when the variant is not modern, or the
`Palette` value supports `len`; the keys recorded come from a fixed set. -/
theorem blockStatsStep_tame (fmt : String) (root : List (String × NBT))
    (h : strStarts fmt "modern_worldedit" = false ∨ paletteOk root = true) :
    (blockStatsStep fmt root).2.2 = none ∧
    ∀ k ∈ (blockStatsStep fmt root).1.map Prod.fst,
      k ∈ (["block_stats", "block_data_size", "tile_entities_count",
        "entities_count"] : List String) := by
  unfold blockStatsStep
  cases hS : strStarts fmt "modern_worldedit" with
  | true =>
      have hpal : paletteOk root = true := by
        rcases h with h | h
        · rw [hS] at h; cases h
        · exact h
      simp only [if_true]
      cases hP : nbtGet root "Palette" with
      | none => simp [modernStats, hP]
      | some p =>
          have hlen : ∃ n, pyLenE p = Except.ok n := by
            unfold paletteOk at hpal
            rw [hP] at hpal
            cases p <;> simp_all [pyLenE]
          obtain ⟨n, hn⟩ := hlen
          cases hBD : nbtGet root "BlockData" with
          | none =>
              constructor <;> simp [modernStats, hP, hn, hBD]
          | some bd =>
              cases hL : pyLenOpt bd with
              | none => constructor <;> simp [modernStats, hP, hn, hBD, hL]
              | some m => constructor <;> simp [modernStats, hP, hn, hBD, hL]
  | false =>
      simp only [Bool.false_eq_true, if_false]
      by_cases hc : (fmt == "classic_worldedit") = true
      · simp only [hc, if_true]
        cases hB : nbtGet root "Blocks" with
        | none => simp [classicStats, hB]
        | some b =>
            constructor
            · simp [classicStats, hB]
            · simp only [classicStats, hB]
              intro k hk
              simp only [List.map_append, List.mem_append, List.map_cons,
                List.map_nil, List.mem_cons, List.not_mem_nil, or_false] at hk
              rcases hk with ((hk | hk) | hk) | hk
              · rw [hk]; decide
              · rcases List.mem_map.mp hk with ⟨q, hq, hqe⟩
                rw [← hqe, optLenPart_keys root "Data" "block_data_size" "Block data size" " bytes" q hq]
                decide
              · rcases List.mem_map.mp hk with ⟨q, hq, hqe⟩
                rw [← hqe, optLenPart_keys root "TileEntities" "tile_entities_count"
                  "Tile entities" "" q hq]
                decide
              · rcases List.mem_map.mp hk with ⟨q, hq, hqe⟩
                rw [← hqe, optLenPart_keys root "Entities" "entities_count" "Entities" "" q hq]
                decide
      · rw [if_neg hc]
        by_cases hl : (fmt == "litematica") = true
        · rw [if_pos hl]
          exact ⟨rfl, by simp⟩
        · rw [if_neg hl]
          exact ⟨rfl, by simp⟩

/-- The root metadata pass on a tame `Metadata` value: no raise and only the
`metadata` key. -/
theorem metadataStep_tame (root : List (String × NBT)) (h : metadataOk root = true) :
    (metadataStep root).2.2 = none ∧
    ∀ k ∈ (metadataStep root).1.map Prod.fst, k = "metadata" := by
  unfold metadataOk at h
  cases hM : nbtGet root "Metadata" with
  | none => constructor <;> simp [metadataStep, hM]
  | some v =>
      rw [hM] at h
      cases v with
      | compound m => constructor <;> simp [metadataStep, hM]
      | list l => cases h
      | byteArray a => cases h
      | intArray a => cases h
      | string s => cases h
      | int n => cases h

/-- The WorldEdit metadata pass on a tame `Metadata` value: no raise and only
the `worldedit_metadata` key. -/
theorem weStep_tame (root : List (String × NBT)) (h : metadataOk root = true) :
    (weStep root).2.2 = none ∧
    ∀ k ∈ (weStep root).1.map Prod.fst, k = "worldedit_metadata" := by
  unfold metadataOk at h
  cases hM : nbtGet root "Metadata" with
  | none => constructor <;> simp [weStep, hM]
  | some v =>
      rw [hM] at h
      cases v with
      | compound m =>
          cases hW : nbtGet m "WorldEdit" with
          | none =>
              have hs : safe_check (NBT.compound m) "WorldEdit" = false := by
                simp [safe_check, hasKey, hW]
              constructor <;> simp [weStep, hM, hs]
          | some wv =>
              have hin : (match nbtGet m "WorldEdit" with
                  | none => true
                  | some (NBT.compound _) => true
                  | some _ => false) = true := h
              rw [hW] at hin
              have hs : safe_check (NBT.compound m) "WorldEdit" = true := by
                simp [safe_check, hasKey, hW]
              have hidx : pyIndex (NBT.compound m) "WorldEdit" = Except.ok wv := by
                simp [pyIndex, hW]
              cases wv with
              | compound w => constructor <;> simp [weStep, hM, hs, hidx]
              | list l => cases hin
              | byteArray a => cases hin
              | intArray a => cases hin
              | string s => cases hin
              | int n => cases hin
      | list l => cases h
      | byteArray a => cases h
      | intArray a => cases h
      | string s => cases h
      | int n => cases h

/-- Pipeline decomposition: when every step succeeds, the analysis result is
the concatenation of the step outputs, the report ends with the closing
banner, and no error is recorded. -/
theorem analyzeTree_decomp (root : List (String × NBT)) (d1 : StepOut)
    (hd1def : (if (detectFormatC root == "litematica") = true
      then regionsStep root else dimsStep root) = d1)
    (h1 : d1.2.2 = none)
    (h2 : (blockStatsStep (detectFormatC root) root).2.2 = none)
    (h3 : (metadataStep root).2.2 = none)
    (h4 : (weStep root).2.2 = none) :
    (analyzeTree root).2.2 = none ∧
    (analyzeTree root).1 = ("format", RVal.s (detectFormatC root)) ::
      (d1.1 ++ (blockStatsStep (detectFormatC root) root).1 ++
       (metadataStep root).1 ++ (weStep root).1 ++ (residualStep root).1) ∧
    (analyzeTree root).2.1 = (s!"Format: {detectFormatC root}") ::
      (d1.2.1 ++ (blockStatsStep (detectFormatC root) root).2.1 ++
       (metadataStep root).2.1 ++ (weStep root).2.1 ++ (residualStep root).2.1 ++
       ["\n=== End of analysis ==="]) := by
  have hrs : (residualStep root).2.2 = none := rfl
  simp only [analyzeTree, hd1def]
  simp [seqStep, h1, h2, h3, h4, hrs, List.append_assoc]

/-- Unpacking of the tame-root condition. -/
theorem tameRoot_parts (root : List (String × NBT)) (h : tameRoot root = true) :
    (if (detectFormatC root == "litematica") = true
      then regionsOk root else dimsInt root) = true ∧
    (strStarts (detectFormatC root) "modern_worldedit" = false ∨ paletteOk root = true) ∧
    metadataOk root = true := by
  simp only [tameRoot, Bool.and_eq_true] at h
  obtain ⟨⟨h1, h2⟩, h3⟩ := h
  refine ⟨h1, ?_, h3⟩
  rcases Bool.or_eq_true_iff.mp h2 with hx | hx
  · left
    simpa using hx
  · right
    exact hx

/-- C10 counterexample: a root with a non-compound `Metadata` and a
non-reserved `Foo` key aborts before the residual reporter, so
`additional_nbt_keys` is absent even though a non-reserved root key exists. -/
theorem c10_cex :
    lookupR (analyzeTree [("Metadata", NBT.int 5), ("Foo", NBT.int 1)]).1
      "additional_nbt_keys" = none ∧
    "Foo" ∈ ([("Metadata", NBT.int 5), ("Foo", NBT.int 1)].map Prod.fst) ∧
    reservedKeys.contains "Foo" = false ∧
    (analyzeTree [("Metadata", NBT.int 5), ("Foo", NBT.int 1)]).2.2 =
      some "AttributeError: no attribute items" := by
  exact ⟨rfl, by decide, by decide, rfl⟩

/-- C10 (amended): on every root whose extraction completes without an
uncaught error (all tame roots), the `additional_nbt_keys` field is present in
the analysis result exactly when some direct root key lies outside the
reserved set, in which case it holds exactly the non-reserved keys; when every
root key is reserved the field is omitted and the report carries the
"No additional NBT data found" line. -/
theorem c10_additional_keys (root : List (String × NBT)) (h : tameRoot root = true) :
    (("additional_nbt_keys" ∈ (analyzeTree root).1.map Prod.fst) ↔
      (residualScan root).1 ≠ []) ∧
    ((residualScan root).1 ≠ [] →
      lookupR (analyzeTree root).1 "additional_nbt_keys" =
        some (RVal.strList (residualScan root).1)) ∧
    ((residualScan root).1 = [] →
      "  No additional NBT data found" ∈ (analyzeTree root).2.1) ∧
    ((residualScan root).1 ≠ [] ↔
      ∃ k ∈ root.map Prod.fst, reservedKeys.contains k = false) := by
  obtain ⟨hd1, hpal, hmeta⟩ := tameRoot_parts root h
  have hbs := blockStatsStep_tame (detectFormatC root) root hpal
  have hms := metadataStep_tame root hmeta
  have hws := weStep_tame root hmeta
  have hd1step : ((if (detectFormatC root == "litematica") = true
      then regionsStep root else dimsStep root).2.2 = none) ∧
      ∀ k ∈ (if (detectFormatC root == "litematica") = true
        then regionsStep root else dimsStep root).1.map Prod.fst,
        (k = "dimensions" ∨ k = "regions") := by
    cases hF : (detectFormatC root == "litematica") with
    | true =>
        simp only [hF, if_true] at hd1 ⊢
        have hr := regionsStep_tame root hd1
        exact ⟨hr.1, fun k hk => Or.inr (hr.2 k hk)⟩
    | false =>
        simp only [hF, Bool.false_eq_true, if_false] at hd1 ⊢
        have hr := dimsStep_tame root hd1
        exact ⟨hr.1, fun k hk => Or.inl (hr.2 k hk)⟩
  obtain ⟨herr, hres, hout⟩ := analyzeTree_decomp root _ rfl hd1step.1 hbs.1 hms.1 hws.1
  have hpre : ∀ q ∈ ((if (detectFormatC root == "litematica") = true
      then regionsStep root else dimsStep root).1 ++
      (blockStatsStep (detectFormatC root) root).1 ++
      (metadataStep root).1 ++ (weStep root).1), q.1 ≠ "additional_nbt_keys" := by
    intro q hq
    simp only [List.mem_append] at hq
    rcases hq with ((hq | hq) | hq) | hq
    · rcases hd1step.2 q.1 (List.mem_map_of_mem Prod.fst hq) with hk | hk <;>
        (rw [hk]; decide)
    · have hk := hbs.2 q.1 (List.mem_map_of_mem Prod.fst hq)
      simp only [List.mem_cons, List.not_mem_nil, or_false] at hk
      rcases hk with hk | hk | hk | hk <;> (rw [hk]; decide)
    · rw [hms.2 q.1 (List.mem_map_of_mem Prod.fst hq)]
      decide
    · rw [hws.2 q.1 (List.mem_map_of_mem Prod.fst hq)]
      decide
  have hrs1 : (residualStep root).1 = (if (residualScan root).1.isEmpty then []
      else [("additional_nbt_keys", RVal.strList (residualScan root).1)]) := rfl
  refine ⟨?_, ?_, ?_, ?_⟩
  · rw [hres]
    constructor
    · intro hmem
      simp only [List.map_cons, List.map_append, List.mem_cons,
        List.mem_append] at hmem
      rcases hmem with hmem | hmem
      · exact absurd hmem (by decide)
      · rcases hmem with (((hmem | hmem) | hmem) | hmem) | hmem
        · rcases hd1step.2 _ hmem with hk | hk <;> exact absurd hk (by decide)
        · have hk := hbs.2 _ hmem
          simp only [List.mem_cons, List.not_mem_nil, or_false] at hk
          rcases hk with hk | hk | hk | hk <;> exact absurd hk (by decide)
        · exact absurd (hms.2 _ hmem) (by decide)
        · exact absurd (hws.2 _ hmem) (by decide)
        · rw [hrs1] at hmem
          cases hE : (residualScan root).1.isEmpty with
          | true =>
              rw [hE] at hmem
              simp at hmem
          | false =>
              intro hnil
              rw [hnil] at hE
              cases hE
    · intro hne
      have hE : (residualScan root).1.isEmpty = false := by
        cases hsc : (residualScan root).1 with
        | nil => exact absurd hsc hne
        | cons a t => rfl
      rw [hrs1, hE]
      simp
  · intro hne
    have hE : (residualScan root).1.isEmpty = false := by
      cases hsc : (residualScan root).1 with
      | nil => exact absurd hsc hne
      | cons a t => rfl
    rw [hres, hrs1, hE]
    simp only [Bool.false_eq_true, if_false]
    have hfa : (("format" : String) == "additional_nbt_keys") = false := by decide
    simp only [lookupR, hfa, Bool.false_eq_true, if_false]
    rw [lookupR_append _ _ _ hpre]
    simp [lookupR]
  · intro hnil
    have hE : (residualScan root).1.isEmpty = true := by
      rw [hnil]
      rfl
    rw [hout]
    have hin : "  No additional NBT data found" ∈ (residualStep root).2.1 := by
      simp [residualStep, hE]
    simp only [List.mem_cons, List.mem_append]
    simp only [List.mem_cons, List.mem_append] at hin
    tauto
  · rw [residualScan_keys]
    constructor
    · intro hne
      obtain ⟨x, hx⟩ := List.exists_mem_of_ne_nil _ hne
      have hx2 := List.mem_filter.mp hx
      refine ⟨x, hx2.1, ?_⟩
      simpa using hx2.2
    · rintro ⟨k, hk, hc⟩
      exact List.ne_nil_of_mem (List.mem_filter.mpr ⟨hk, by simpa using hc⟩)

/-- C10 witness: a tame root with one non-reserved key `Foo`. -/
theorem c10_additional_keys_w :
    "additional_nbt_keys" ∈ (analyzeTree [("Foo", NBT.int 1)]).1.map Prod.fst ∧
    lookupR (analyzeTree [("Foo", NBT.int 1)]).1 "additional_nbt_keys" =
      some (RVal.strList ["Foo"]) := by
  have h := c10_additional_keys [("Foo", NBT.int 1)] rfl
  have hne : (residualScan [("Foo", NBT.int 1)]).1 ≠ [] := by decide
  exact ⟨h.1.mpr hne, (h.2.1 hne).trans (by rfl)⟩
